import Mathlib

/-!
The `terrors` error taxonomy and the `logging` package of the workshop's
helper library.

A shallow embedding of `x/terrors` (`errors.go`, `presentable_error.go`,
`error_combiner.go`), of `x/logging` (`repository.go`, `accessors.go`,
`nooplogger.go`, `zap_logger.go`, `zap_options.go`) and of the
standard-library functions they are used with (`fmt.Sprintf`,
`strconv.FormatInt`, `errors.New`, `errors.Unwrap`, `errors.As`,
`fmt.Errorf`, `context.WithValue`), and of the conversion of orders to their
REST summaries (`internal/orders/order.go` and `internal/rest/models.go` of
chapter 3, `main.go` of chapter 2), followed by the properties proved about
them. The zap library is not among the sources; what the package uses of it
is modelled from the specification and marked so.

Conventions of the embedding:

* a Go `error` interface value is a `GoError`: `nil`, a pointer to one of the
  package's structs, or an error of a type declared outside the package;
* a method call that panics at run time (a nil dereference) evaluates to
  `none`; a call that returns evaluates to `some` of its result;
* Go's `int` and `int64` are `Int`; the only arithmetic on them is the loop
  counter of `UnwrapInfoExtractor`, which stays below `maxDepth`;
* the `ZapJSONLogger` structs live in a heap that the methods take and
  return; a pointer is an address of the heap, or nil.
-/

namespace strconv

/-- The function `strconv.FormatInt(i, base)`, for the bases up to 16: the
digits of the absolute value, after a minus sign when `i` is negative. -/
def FormatInt (i : Int) (base : Nat) : String :=
  if i < 0 then "-" ++ String.mk (Nat.toDigits base i.natAbs)
  else String.mk (Nat.toDigits base i.natAbs)

end strconv

namespace fmt

/-- An operand of `fmt.Sprintf`: the package formats strings and 64-bit integers. -/
inductive Arg where
  | str (s : String)
  | int (i : Int)
  deriving DecidableEq, Repr

/-- Expansion of a format over its operands, on character lists. The verbs
the package uses are interpreted: `%s` consumes a string operand, `%d` an
integer operand and prints it in base 10. Every other character is copied.
(A verb without an operand of its type does not occur in the package and is
copied as it stands.) -/
def expand : List Char → List Arg → List Char
  | '%' :: 's' :: rest, Arg.str s :: args => s.data ++ expand rest args
  | '%' :: 'd' :: rest, Arg.int i :: args => (toString i).data ++ expand rest args
  | c :: rest, args => c :: expand rest args
  | [], _ => []

/-- The function `fmt.Sprintf(format, args...)`. -/
def Sprintf (format : String) (args : List Arg) : String :=
  ⟨expand format.data args⟩

end fmt

namespace terrors

open fmt (Sprintf Arg)

/-- The struct `InputAndMsg`: an invalid input identifier and why it is invalid. -/
structure InputAndMsg where
  Input : String
  Msg : String
  deriving DecidableEq, Repr

/-- The exported fields of the package's error structs, one constructor per
struct type that embeds `baseError`. -/
inductive Variant where
  | BaseError
  | InternalError (Msg : String)
  | UnknownError (Msg : String)
  | NotImplemented (Feature : String)
  | InvalidInput (Inputs : List InputAndMsg)
  | InvalidParameter (Parameter : String) (Msg : String)
  | NotFound (Resource : String) (Field : String) (Value : String)
  | ServiceUnavailable (Service : String) (RetryInterval : Int)
  | StateConflict (Msg : String)
  | Unauthenticated (Msg : String)
  | Forbidden (Msg : String)
  | UnsatisfiableRange (FirstBytePos : Int) (LastBytePos : Option Int) (CompleteLength : Int)
  | InvalidCtxValue (Key : String)
  deriving DecidableEq, Repr

/-- The struct types of the package that embed `baseError`. -/
inductive StructType where
  | BaseError
  | InternalError
  | UnknownError
  | NotImplemented
  | InvalidInput
  | InvalidParameter
  | NotFound
  | ServiceUnavailable
  | StateConflict
  | Unauthenticated
  | Forbidden
  | UnsatisfiableRange
  | InvalidCtxValue
  deriving DecidableEq, Repr

/-- The struct type a value of `Variant` is of. -/
def Variant.structType : Variant → StructType
  | .BaseError => .BaseError
  | .InternalError _ => .InternalError
  | .UnknownError _ => .UnknownError
  | .NotImplemented _ => .NotImplemented
  | .InvalidInput _ => .InvalidInput
  | .InvalidParameter _ _ => .InvalidParameter
  | .NotFound _ _ _ => .NotFound
  | .ServiceUnavailable _ _ => .ServiceUnavailable
  | .StateConflict _ => .StateConflict
  | .Unauthenticated _ => .Unauthenticated
  | .Forbidden _ => .Forbidden
  | .UnsatisfiableRange _ _ _ => .UnsatisfiableRange
  | .InvalidCtxValue _ => .InvalidCtxValue

/-- A value of Go's `error` interface.

* `nil`: the nil interface value;
* `foreign msg cause`: an error of a type declared outside this package
  (`errors.New`, `fmt.Errorf` with `%w`, ...), with its message and what its
  `Unwrap` returns (`nil` when it has none); such a type has no other method;
* `foreignPresentable msg presentable cause`: an error of a type declared
  outside this package that implements the exported interface
  `PresentableError`, with its message, what its `PresentableError()` returns
  and what its `Unwrap` returns;
* `typed Err msg v`: a pointer to one of the package's structs; `Err` and
  `msg` are the fields of the embedded `baseError`, `v` the struct type and
  its exported fields;
* `presentableWrapper err`: a pointer to a `presentableWrapper` with field `err`. -/
inductive GoError where
  | nil
  | foreign (msg : String) (cause : GoError)
  | foreignPresentable (msg : String) (presentable : String) (cause : GoError)
  | typed (Err : GoError) (msg : String) (v : Variant)
  | presentableWrapper (err : GoError)
  deriving DecidableEq, Repr

/-- The struct `baseError`. -/
structure baseError where
  Err : GoError
  msg : String
  deriving DecidableEq, Repr

/-- The method `(*baseError).Error`. -/
def baseError.Error (e : baseError) : String :=
  e.msg

/-- The method `(*baseError).Unwrap`; the receiver is a pointer, `none` when nil. -/
def baseError.Unwrap (e : Option baseError) : GoError :=
  match e with
  | none => GoError.nil
  | some e => e.Err

namespace GoError

/-- The test `err == nil`. -/
def isNil : GoError → Bool
  | nil => true
  | _ => false

/-- The method `Error()` of an error value: `(*baseError).Error`, promoted to
every struct of the package, returns the stored `msg`;
`(*presentableWrapper).Error` returns `c.err.Error()`. Calling it on a nil
interface panics. -/
def Error : GoError → Option String
  | nil => none
  | foreign msg _ => some msg
  | foreignPresentable msg _ _ => some msg
  | typed Err msg _ => some (baseError.Error ⟨Err, msg⟩)
  | presentableWrapper err => err.Error

/-- The method `Unwrap()` of an error value: `(*baseError).Unwrap`, promoted
to every struct of the package, and `(*presentableWrapper).Unwrap`, which
returns `c.err`. For a value without the method the result is nil, which is
what `errors.Unwrap` returns for it. -/
def Unwrap : GoError → GoError
  | nil => nil
  | foreign _ cause => cause
  | foreignPresentable _ _ cause => cause
  | typed Err msg _ => baseError.Unwrap (some ⟨Err, msg⟩)
  | presentableWrapper err => err

end GoError

/-- The function `newBaseError(msg, err)` followed by its embedding in the
struct `v`: every constructor of the package returns
`&T{baseError: newBaseError(msg, err), ...}`. -/
def newBaseError (msg : String) (err : GoError) (v : Variant) : GoError :=
  GoError.typed err msg v

/-- The function `NewBaseError`. -/
def NewBaseError (msg : String) (err : GoError) : GoError :=
  newBaseError msg err Variant.BaseError

/-- The function `NewInternalError`. -/
def NewInternalError (msg : String) (err : GoError) : GoError :=
  newBaseError (Sprintf "an internal error occurred: %s" [Arg.str msg]) err
    (Variant.InternalError msg)

/-- The function `NewUnknownError`. -/
def NewUnknownError (msg : String) (err : GoError) : GoError :=
  newBaseError (Sprintf "an unexpected error occurred: %s" [Arg.str msg]) err
    (Variant.UnknownError msg)

/-- The function `NewNotImplemented`: it has no `err` parameter and wraps nil. -/
def NewNotImplemented (feature : String) : GoError :=
  newBaseError (Sprintf "feature %s is not implemented" [Arg.str feature]) GoError.nil
    (Variant.NotImplemented feature)

/-- The loop of `NewInvalidInput` over `inputs`, from index `i`, on the
contents of the `strings.Builder`. -/
def invalidInputLoop : List InputAndMsg → Nat → String → String
  | [], _, builder => builder
  | inputAndMsg :: rest, i, builder =>
    let builder := if i ≠ 0 then builder ++ ", " else builder
    invalidInputLoop rest (i + 1)
      (builder ++ Sprintf "%s %s" [Arg.str inputAndMsg.Input, Arg.str inputAndMsg.Msg])

/-- The function `NewInvalidInput`. -/
def NewInvalidInput (inputs : List InputAndMsg) (err : GoError) : GoError :=
  let builder := invalidInputLoop inputs 0 ""
  newBaseError (Sprintf "invalid input(s): %s" [Arg.str builder]) err
    (Variant.InvalidInput inputs)

/-- The function `NewInvalidSingleInput`. -/
def NewInvalidSingleInput (input msg : String) (err : GoError) : GoError :=
  NewInvalidInput [{ Input := input, Msg := msg }] err

/-- The function `NewInvalidParameter`. -/
def NewInvalidParameter (param msg : String) (err : GoError) : GoError :=
  newBaseError (Sprintf "invalid parameter %s: %s" [Arg.str param, Arg.str msg]) err
    (Variant.InvalidParameter param msg)

/-- The function `NewNilParameter`. -/
def NewNilParameter (name : String) : GoError :=
  NewInvalidParameter name "must not be nil" GoError.nil

/-- The function `NewNotFound`. -/
def NewNotFound (resource field value : String) (err : GoError) : GoError :=
  newBaseError
    (Sprintf "%s was not found with %s: %s" [Arg.str resource, Arg.str field, Arg.str value])
    err
    (Variant.NotFound resource field value)

/-- The function `NewServiceUnavailable`; `RetryInterval` keeps its zero value. -/
def NewServiceUnavailable (service : String) (err : GoError) : GoError :=
  newBaseError (Sprintf "%s service unavailable" [Arg.str service]) err
    (Variant.ServiceUnavailable service 0)

/-- The function `NewServiceUnavailableWithRetryInterval`. -/
def NewServiceUnavailableWithRetryInterval (service : String) (retryInterval : Int)
    (err : GoError) : GoError :=
  newBaseError (Sprintf "%s service unavailable" [Arg.str service]) err
    (Variant.ServiceUnavailable service retryInterval)

/-- The function `NewStateConflict`. -/
def NewStateConflict (msg : String) (err : GoError) : GoError :=
  newBaseError (Sprintf "operation not possible due to current state: %s" [Arg.str msg]) err
    (Variant.StateConflict msg)

/-- The function `NewUnauthenticated`. -/
def NewUnauthenticated (msg : String) (err : GoError) : GoError :=
  newBaseError (Sprintf "unauthenticated: %s" [Arg.str msg]) err
    (Variant.Unauthenticated msg)

/-- The function `NewForbidden`. -/
def NewForbidden (msg : String) (err : GoError) : GoError :=
  newBaseError (Sprintf "forbidden: %s" [Arg.str msg]) err
    (Variant.Forbidden msg)

/-- The function `NewUnsatisfiableRange`; `lastBytePos` is a pointer, `none` when nil. -/
def NewUnsatisfiableRange (firstBytePos : Int) (lastBytePos : Option Int)
    (completeLength : Int) (err : GoError) : GoError :=
  let byteRange := Sprintf "%d-" [Arg.int firstBytePos]
  let byteRange :=
    match lastBytePos with
    | some last => byteRange ++ strconv.FormatInt last 10
    | none => byteRange
  newBaseError
    (Sprintf "unsatisfiable range: %s (complete length: %d)"
      [Arg.str byteRange, Arg.int completeLength])
    err
    (Variant.UnsatisfiableRange firstBytePos lastBytePos completeLength)

/-- The function `NewInvalidCtxValue`: it has no `err` parameter and wraps nil. -/
def NewInvalidCtxValue (key : String) : GoError :=
  newBaseError (Sprintf "context value %s was missing or not the expected type" [Arg.str key])
    GoError.nil
    (Variant.InvalidCtxValue key)

/-- The package variable `InternalErrorType = &InternalError{}`. -/
def InternalErrorType : GoError := GoError.typed GoError.nil "" (Variant.InternalError "")

/-- The package variable `UnknownErrorType = &UnknownError{}`. -/
def UnknownErrorType : GoError := GoError.typed GoError.nil "" (Variant.UnknownError "")

/-- The package variable `NotImplementedType = &NotImplemented{}`. -/
def NotImplementedType : GoError := GoError.typed GoError.nil "" (Variant.NotImplemented "")

/-- The package variable `InvalidInputType = &InvalidInput{}`. -/
def InvalidInputType : GoError := GoError.typed GoError.nil "" (Variant.InvalidInput [])

/-- The package variable `InvalidParameterType = &InvalidParameter{}`. -/
def InvalidParameterType : GoError :=
  GoError.typed GoError.nil "" (Variant.InvalidParameter "" "")

/-- The package variable `NotFoundType = &NotFound{}`. -/
def NotFoundType : GoError := GoError.typed GoError.nil "" (Variant.NotFound "" "" "")

/-- The package variable `ServiceUnavailableType = &ServiceUnavailable{}`. -/
def ServiceUnavailableType : GoError :=
  GoError.typed GoError.nil "" (Variant.ServiceUnavailable "" 0)

/-- The package variable `StateConflictType = &StateConflict{}`. -/
def StateConflictType : GoError := GoError.typed GoError.nil "" (Variant.StateConflict "")

/-- The package variable `UnauthenticatedType = &Unauthenticated{}`. -/
def UnauthenticatedType : GoError := GoError.typed GoError.nil "" (Variant.Unauthenticated "")

/-- The package variable `ForbiddenType = &Forbidden{}`. -/
def ForbiddenType : GoError := GoError.typed GoError.nil "" (Variant.Forbidden "")

/-- The package variable `UnsatisfiableRangeType = &UnsatisfiableRange{}`. -/
def UnsatisfiableRangeType : GoError :=
  GoError.typed GoError.nil "" (Variant.UnsatisfiableRange 0 none 0)

/-- The package variable `InvalidCtxValueType = &InvalidCtxValue{}`. -/
def InvalidCtxValueType : GoError := GoError.typed GoError.nil "" (Variant.InvalidCtxValue "")

/-- The twelve sentinels of the `var` block of `errors.go`, in its order. -/
def sentinels : List GoError :=
  [InternalErrorType, UnknownErrorType, NotImplementedType, InvalidInputType,
   InvalidParameterType, NotFoundType, ServiceUnavailableType, StateConflictType,
   UnauthenticatedType, ForbiddenType, UnsatisfiableRangeType, InvalidCtxValueType]

/-- The function `Presentable`. -/
def Presentable (err : GoError) : GoError :=
  GoError.presentableWrapper err

/-- The method `(*presentableWrapper).PresentableError`, on the receiver `c`:
it returns `c.Error()`. -/
def presentableWrapper.PresentableError (c : GoError) : Option String :=
  c.Error

/-- The function `IsPresentable`: the type assertion `err.(PresentableError)`
succeeds for the types with that method, `*presentableWrapper` and the types
outside the package that implement the exported interface. -/
def IsPresentable (err : GoError) : Bool :=
  match err with
  | GoError.presentableWrapper _ => true
  | GoError.foreignPresentable _ _ _ => true
  | _ => false

/-- The function `PresentableErrorMsg`. -/
def PresentableErrorMsg (err : GoError) (msg : String) : Option String :=
  match err with
  | GoError.presentableWrapper inner =>
    presentableWrapper.PresentableError (GoError.presentableWrapper inner)
  | GoError.foreignPresentable _ presentable _ => some presentable
  | _ => some msg

end terrors

namespace errors

open terrors

/-- The function `errors.Unwrap`: the result of the `Unwrap` method when the
value has one, nil otherwise. -/
def Unwrap (err : GoError) : GoError :=
  err.Unwrap

/-- The loop of `errors.As` for a target of pointer type `*T`, `T` a struct
of the package: `err` matches when its dynamic type is `*T`, otherwise the
walk goes on with what `Unwrap` returns and fails at nil. (No type in the
model has an `As` method.) -/
def asLoop : GoError → StructType → Bool
  | GoError.nil, _ => false
  | GoError.foreign _ cause, t => asLoop cause t
  | GoError.foreignPresentable _ _ cause, t => asLoop cause t
  | GoError.typed Err _ v, t => if v.structType = t then true else asLoop Err t
  | GoError.presentableWrapper err, t => asLoop err t

/-- The call `errors.As(err, &target)` for a package variable `target`: the
target type is the type of the variable, a pointer to a struct of the
package. Only the returned boolean is modelled, not the assignment to the
variable. -/
def As (err : GoError) (target : GoError) : Bool :=
  match target with
  | GoError.typed _ _ v => asLoop err v.structType
  | _ => false

end errors

namespace terrors

/-- What `UnwrapInfoExtractor` uses of the `error` interface, over a type `E`
of error values: the test `err == nil`, the method `Error()` (`none` when it
panics) and `errors.Unwrap`. -/
structure ErrorOps (E : Type) where
  isNil : E → Bool
  Error : E → Option String
  Unwrap : E → E

/-- The `for i := 1; i < maxDepth; i++` loop of `UnwrapInfoExtractor`, from
the counter `i`, the current `err` and the contents of the builder. -/
def unwrapLoop {E : Type} (ops : ErrorOps E) (maxDepth : Int) (i : Int) (err : E)
    (builder : String) : Option String :=
  if _h : i < maxDepth then
    let err := ops.Unwrap err
    if ops.isNil err then some builder
    else
      match ops.Error err with
      | none => none
      | some m => unwrapLoop ops maxDepth (i + 1) err (builder ++ (": " ++ m))
  else some builder
termination_by (maxDepth - i).toNat
decreasing_by omega

/-- The closure returned by `UnwrapInfoExtractor(maxDepth)`, applied to `err`,
over any implementation of the `error` interface. -/
def unwrapInfo {E : Type} (ops : ErrorOps E) (maxDepth : Int) (err : E) : Option String :=
  if ops.isNil err then some ""
  else
    match ops.Error err with
    | none => none
    | some m => unwrapLoop ops maxDepth 1 err ("" ++ m)

/-- The operations of `GoError` values. -/
def GoError.ops : ErrorOps GoError where
  isNil := GoError.isNil
  Error := GoError.Error
  Unwrap := errors.Unwrap

/-- The function `UnwrapInfoExtractor(maxDepth)`, applied to `err`. -/
def UnwrapInfoExtractor (maxDepth : Int) (err : GoError) : Option String :=
  unwrapInfo GoError.ops maxDepth err

/-- A call of one of the constructors of the twelve variants, with its arguments. -/
inductive Call where
  | NewInternalError (msg : String) (err : GoError)
  | NewUnknownError (msg : String) (err : GoError)
  | NewNotImplemented (feature : String)
  | NewInvalidInput (inputs : List InputAndMsg) (err : GoError)
  | NewInvalidSingleInput (input msg : String) (err : GoError)
  | NewInvalidParameter (param msg : String) (err : GoError)
  | NewNilParameter (name : String)
  | NewNotFound (resource field value : String) (err : GoError)
  | NewServiceUnavailable (service : String) (err : GoError)
  | NewServiceUnavailableWithRetryInterval (service : String) (retryInterval : Int)
      (err : GoError)
  | NewStateConflict (msg : String) (err : GoError)
  | NewUnauthenticated (msg : String) (err : GoError)
  | NewForbidden (msg : String) (err : GoError)
  | NewUnsatisfiableRange (firstBytePos : Int) (lastBytePos : Option Int)
      (completeLength : Int) (err : GoError)
  | NewInvalidCtxValue (key : String)
  deriving DecidableEq, Repr

namespace Call

/-- The error the call returns. -/
def eval : Call → GoError
  | NewInternalError msg err => terrors.NewInternalError msg err
  | NewUnknownError msg err => terrors.NewUnknownError msg err
  | NewNotImplemented feature => terrors.NewNotImplemented feature
  | NewInvalidInput inputs err => terrors.NewInvalidInput inputs err
  | NewInvalidSingleInput input msg err => terrors.NewInvalidSingleInput input msg err
  | NewInvalidParameter param msg err => terrors.NewInvalidParameter param msg err
  | NewNilParameter name => terrors.NewNilParameter name
  | NewNotFound resource field value err => terrors.NewNotFound resource field value err
  | NewServiceUnavailable service err => terrors.NewServiceUnavailable service err
  | NewServiceUnavailableWithRetryInterval service retryInterval err =>
    terrors.NewServiceUnavailableWithRetryInterval service retryInterval err
  | NewStateConflict msg err => terrors.NewStateConflict msg err
  | NewUnauthenticated msg err => terrors.NewUnauthenticated msg err
  | NewForbidden msg err => terrors.NewForbidden msg err
  | NewUnsatisfiableRange firstBytePos lastBytePos completeLength err =>
    terrors.NewUnsatisfiableRange firstBytePos lastBytePos completeLength err
  | NewInvalidCtxValue key => terrors.NewInvalidCtxValue key

/-- The sentinel of the variant the called constructor belongs to. -/
def sentinel : Call → GoError
  | NewInternalError _ _ => InternalErrorType
  | NewUnknownError _ _ => UnknownErrorType
  | NewNotImplemented _ => NotImplementedType
  | NewInvalidInput _ _ => InvalidInputType
  | NewInvalidSingleInput _ _ _ => InvalidInputType
  | NewInvalidParameter _ _ _ => InvalidParameterType
  | NewNilParameter _ => InvalidParameterType
  | NewNotFound _ _ _ _ => NotFoundType
  | NewServiceUnavailable _ _ => ServiceUnavailableType
  | NewServiceUnavailableWithRetryInterval _ _ _ => ServiceUnavailableType
  | NewStateConflict _ _ => StateConflictType
  | NewUnauthenticated _ _ => UnauthenticatedType
  | NewForbidden _ _ => ForbiddenType
  | NewUnsatisfiableRange _ _ _ _ => UnsatisfiableRangeType
  | NewInvalidCtxValue _ => InvalidCtxValueType

/-- The `err` argument of the call, for the constructors that have the parameter. -/
def errArg : Call → Option GoError
  | NewInternalError _ err => some err
  | NewUnknownError _ err => some err
  | NewNotImplemented _ => none
  | NewInvalidInput _ err => some err
  | NewInvalidSingleInput _ _ err => some err
  | NewInvalidParameter _ _ err => some err
  | NewNilParameter _ => none
  | NewNotFound _ _ _ err => some err
  | NewServiceUnavailable _ err => some err
  | NewServiceUnavailableWithRetryInterval _ _ err => some err
  | NewStateConflict _ err => some err
  | NewUnauthenticated _ err => some err
  | NewForbidden _ err => some err
  | NewUnsatisfiableRange _ _ _ err => some err
  | NewInvalidCtxValue _ => none

end Call

/-- The entry of an `InvalidInput` message for one pair: the input, a blank, the reason. -/
def renderInput (p : InputAndMsg) : String :=
  p.Input ++ " " ++ p.Msg

/-- The wrap chain of an error: the error, what it unwraps to, and so on up to nil. -/
def chain : GoError → List GoError
  | GoError.nil => []
  | GoError.foreign msg cause => GoError.foreign msg cause :: chain cause
  | GoError.foreignPresentable msg presentable cause =>
    GoError.foreignPresentable msg presentable cause :: chain cause
  | GoError.typed Err msg v => GoError.typed Err msg v :: chain Err
  | GoError.presentableWrapper err => GoError.presentableWrapper err :: chain err

/-- The messages of a list of errors, `none` when `Error()` panics on one of them. -/
def messages : List GoError → Option (List String)
  | [] => some []
  | e :: es =>
    match e.Error, messages es with
    | some m, some ms => some (m :: ms)
    | _, _ => none

end terrors

namespace terrors

/-- What a run of the instrumented extractor records: how many times
`errors.Unwrap` was called, the messages written into the builder in order,
and what the extractor returns (`none` when `Error()` panicked). -/
structure Run where
  unwraps : Nat
  written : List String
  result : Option String
  deriving DecidableEq, Repr

/-- The loop of `UnwrapInfoExtractor` (see `unwrapLoop`), with a counter of the
calls of `errors.Unwrap` made so far and the list of the messages written so far. -/
def unwrapLoopRun {E : Type} (ops : ErrorOps E) (maxDepth : Int) (i : Int) (err : E)
    (builder : String) (unwraps : Nat) (written : List String) : Run :=
  if _h : i < maxDepth then
    let err := ops.Unwrap err
    if ops.isNil err then { unwraps := unwraps + 1, written := written, result := some builder }
    else
      match ops.Error err with
      | none => { unwraps := unwraps + 1, written := written, result := none }
      | some m =>
        unwrapLoopRun ops maxDepth (i + 1) err (builder ++ (": " ++ m)) (unwraps + 1)
          (written ++ [m])
  else { unwraps := unwraps, written := written, result := some builder }
termination_by (maxDepth - i).toNat
decreasing_by omega

/-- The closure returned by `UnwrapInfoExtractor(maxDepth)` (see `unwrapInfo`),
instrumented as `unwrapLoopRun` is. -/
def unwrapInfoRun {E : Type} (ops : ErrorOps E) (maxDepth : Int) (err : E) : Run :=
  if ops.isNil err then { unwraps := 0, written := [], result := some "" }
  else
    match ops.Error err with
    | none => { unwraps := 0, written := [], result := none }
    | some m => unwrapLoopRun ops maxDepth 1 err ("" ++ m) 0 [m]

/-- An error value that is its own cause: its `Unwrap` returns the value
itself, so its wrap chain is cyclic. Its message is `"loop"`. -/
def selfWrapped : ErrorOps Unit where
  isNil := fun _ => false
  Error := fun _ => some "loop"
  Unwrap := fun _ => ()

end terrors

namespace errors

open terrors

/-- The function `errors.New(text)`: an error of the standard library's own
type, with the given message and no `Unwrap` method. -/
def New (text : String) : GoError :=
  GoError.foreign text GoError.nil

end errors

namespace terrors

open fmt (Sprintf Arg)

/-- The type `ErrInfoExtractor`, a function value `func(error) string`:
`none` is the nil function; a call evaluates to `none` when it panics. -/
abbrev ErrInfoExtractor := Option (GoError → Option String)

/-- The loop of `CombineErrsIntoError` over `errs`, from index `i`, on the
contents of the builder. `err.Error()` is called for every error, before the
extractor is looked at. -/
def combineLoop (infoExtractor : ErrInfoExtractor) : List GoError → Nat → String → Option String
  | [], _, builder => some builder
  | err :: rest, i, builder =>
    let builder := if i ≠ 0 then builder ++ ", " else builder
    match err.Error with
    | none => none
    | some errMsg =>
      match infoExtractor with
      | none => combineLoop infoExtractor rest (i + 1) (builder ++ errMsg)
      | some f =>
        match f err with
        | none => none
        | some errMsg => combineLoop infoExtractor rest (i + 1) (builder ++ errMsg)

/-- The function `CombineErrsIntoError`; `none` when it panics. -/
def CombineErrsIntoError (msg : String) (errs : List GoError)
    (infoExtractor : ErrInfoExtractor) : Option GoError :=
  if errs.length = 0 then some GoError.nil
  else
    let builder := "" ++ Sprintf "%s: " [Arg.str msg]
    match combineLoop infoExtractor errs 0 builder with
    | none => none
    | some s => some (errors.New s)

/-- The string `CombineErrsIntoError` contributes for one error: `err.Error()`
without an extractor, `extractor(err)` with one, after `err.Error()` has
returned; `none` when one of the calls panics. -/
def perErrorString (infoExtractor : ErrInfoExtractor) (err : GoError) : Option String :=
  match err.Error with
  | none => none
  | some errMsg =>
    match infoExtractor with
    | none => some errMsg
    | some f => f err

/-- The per-error strings of a list of errors, `none` when a call panics. -/
def perErrorStrings (infoExtractor : ErrInfoExtractor) : List GoError → Option (List String)
  | [] => some []
  | e :: es =>
    match perErrorString infoExtractor e, perErrorStrings infoExtractor es with
    | some s, some ss => some (s :: ss)
    | _, _ => none

namespace Call

/-- The call with `err` as its cause argument; a call of a constructor
without the parameter is left as it is. -/
def withErr : Call → GoError → Call
  | NewInternalError msg _, err => NewInternalError msg err
  | NewUnknownError msg _, err => NewUnknownError msg err
  | NewNotImplemented feature, _ => NewNotImplemented feature
  | NewInvalidInput inputs _, err => NewInvalidInput inputs err
  | NewInvalidSingleInput input msg _, err => NewInvalidSingleInput input msg err
  | NewInvalidParameter param msg _, err => NewInvalidParameter param msg err
  | NewNilParameter name, _ => NewNilParameter name
  | NewNotFound resource field value _, err => NewNotFound resource field value err
  | NewServiceUnavailable service _, err => NewServiceUnavailable service err
  | NewServiceUnavailableWithRetryInterval service retryInterval _, err =>
    NewServiceUnavailableWithRetryInterval service retryInterval err
  | NewStateConflict msg _, err => NewStateConflict msg err
  | NewUnauthenticated msg _, err => NewUnauthenticated msg err
  | NewForbidden msg _, err => NewForbidden msg err
  | NewUnsatisfiableRange firstBytePos lastBytePos completeLength _, err =>
    NewUnsatisfiableRange firstBytePos lastBytePos completeLength err
  | NewInvalidCtxValue key, _ => NewInvalidCtxValue key

end Call

/-- Assignment to the exported fields of a constructed error `e` of the
package: the promoted field `Err` and the fields of the struct itself
(`Msg`, `Resource`, `Inputs`, `RetryInterval`, ...) take the given values;
the unexported `msg` of the embedded `baseError` cannot be assigned. -/
def GoError.assignFields (e : GoError) (Err : GoError) (v : Variant) : GoError :=
  match e with
  | GoError.typed _ msg _ => GoError.typed Err msg v
  | e => e

end terrors

/-- A value of Go's empty interface `interface{}`, for the dynamic types the
model tells apart: nil, strings, integers, booleans, the two pointer types
of package `logging`, and a value of a type declared outside the package that
implements the interface `Logger`. A `*ZapJSONLogger` is nil (`none`) or the
address of a struct in the heap; a `*NoopLogger` is nil (`true`) or points to
the empty struct. Of a value of another implementation the model keeps the
name of its type and what `reflect.Value.IsNil` does on it: `none` when the
type is of a kind that cannot be nil (a struct, a string, a number), for
which `IsNil` panics, and `some b` when it is a pointer, map, slice, channel
or function, nil (`b` true) or not. -/
inductive GoValue where
  | nil
  | str (s : String)
  | int (i : Int)
  | bool (b : Bool)
  | zapJSONLogger (z : Option Nat)
  | noopLogger (isNilPointer : Bool)
  | foreignLogger (typeName : String) (isNil : Option Bool)
  deriving DecidableEq, Repr

namespace zapcore

open terrors

/-- Modelled from the spec: the type `zapcore.Level` of the zap library, which
is not among the sources, with the four levels of the specification. -/
inductive Level where
  | DebugLevel
  | InfoLevel
  | WarnLevel
  | ErrorLevel
  deriving DecidableEq, Repr

/-- Modelled from the spec: the order of the levels of `zapcore.Level`, debug
lowest and error highest. -/
def Level.rank : Level → Nat
  | DebugLevel => 0
  | InfoLevel => 1
  | WarnLevel => 2
  | ErrorLevel => 3

/-- Modelled from the spec: the parse error of `(*zapcore.Level).UnmarshalText`
for a string that is no level (the specification does not fix its wording). -/
def parseError (text : String) : GoError :=
  errors.New ("unrecognized level: " ++ text)

/-- Modelled from the spec: the method `(*zapcore.Level).UnmarshalText` of the
zap library, on the configuration string: `"debug"`, `"info"`, `"warn"` and
`"error"` are the levels; every other string fails with a parse error. -/
def UnmarshalText (text : String) : Except GoError Level :=
  if text = "debug" then Except.ok Level.DebugLevel
  else if text = "info" then Except.ok Level.InfoLevel
  else if text = "warn" then Except.ok Level.WarnLevel
  else if text = "error" then Except.ok Level.ErrorLevel
  else Except.error (parseError text)

/-- The struct `zapcore.EncoderConfig`, for the fields `stdJSONLoggerConfig`
sets to strings (the encoder functions are left out). -/
structure EncoderConfig where
  TimeKey : String
  LevelKey : String
  MessageKey : String
  NameKey : String
  StacktraceKey : String
  CallerKey : String
  LineEnding : String
  deriving DecidableEq, Repr

end zapcore

namespace zap

open terrors

/-- Modelled from the spec: a `zap.Field`, a key with the value attached under it. -/
structure Field where
  Key : String
  Value : GoValue
  deriving DecidableEq, Repr

/-- Modelled from the spec: the function `zap.Any(key, value)`. -/
def Any (key : String) (value : GoValue) : Field :=
  { Key := key, Value := value }

/-- A hook `func(zapcore.Entry) error`, known by a name. -/
structure Hook where
  name : String
  deriving DecidableEq, Repr

/-- Modelled from the spec: a record handed to the output sink, with its
level, its message and the attached fields (timestamp, caller and stack
trace are left out). -/
structure Record where
  level : zapcore.Level
  message : String
  fields : List Field
  deriving DecidableEq, Repr

/-- Modelled from the spec: the `zap.Logger` of the zap library, which is not
among the sources: its minimum level, the fields attached to it, and the
options it was built with. -/
structure Logger where
  level : zapcore.Level
  fields : List Field
  callerSkip : Int
  hooks : List Hook
  deriving DecidableEq, Repr

/-- Modelled from the spec: attaching one field to a set of attached fields;
a new key overrides an old one on collision. -/
def attach (fields : List Field) (f : Field) : List Field :=
  fields.filter (fun g => g.Key ≠ f.Key) ++ [f]

/-- Modelled from the spec: the method `(*zap.Logger).With(fields...)`: a new
logger that carries the fields of the receiver and the new ones, new keys
overriding old ones; the receiver is not changed. -/
def Logger.With (l : Logger) (fields : List Field) : Logger :=
  { l with fields := fields.foldl attach l.fields }

/-- Modelled from the spec: a call at level `lvl` on a `zap.Logger`: one
record with the message and the attached fields when `lvl` is at least the
minimum level, nothing otherwise. -/
def Logger.log (l : Logger) (lvl : zapcore.Level) (msg : String) : Option Record :=
  if l.level.rank ≤ lvl.rank then some { level := lvl, message := msg, fields := l.fields }
  else none

/-- The struct `zap.Config`, for the fields `stdJSONLoggerConfig` sets. -/
structure Config where
  Level : zapcore.Level
  Development : Bool
  Encoding : String
  OutputPaths : List String
  ErrorOutputPaths : List String
  EncoderConfig : zapcore.EncoderConfig
  deriving DecidableEq, Repr

/-- Modelled from the spec: the method `zap.Config.Build` of the zap library,
with the options `AddCallerSkip` and `Hooks`. It builds a logger at the
configured minimum level with no field attached. The standard streams need
no setup, so a configuration that writes to `stdout` and `stderr` only builds
without error; the setup of any other sink is not covered and is reported as
an error. -/
def Config.Build (config : Config) (callerSkip : Int) (hooks : List Hook) :
    Except GoError Logger :=
  if config.OutputPaths.all (fun p => p = "stdout" ∨ p = "stderr")
      ∧ config.ErrorOutputPaths.all (fun p => p = "stdout" ∨ p = "stderr") then
    Except.ok { level := config.Level, fields := [], callerSkip := callerSkip, hooks := hooks }
  else Except.error (errors.New "sink setup failed")

end zap

namespace context

/-- A key of a context value: of the type `ctxKey` of package `logging`, or
of any other type; keys of different types are different keys. -/
inductive Key where
  | ctxKey (s : String)
  | other (s : String)
  deriving DecidableEq, Repr

/-- A non-nil `context.Context`, as far as its values go: an empty context
(`context.Background()`), or `context.WithValue(parent, key, val)`. -/
inductive Context where
  | background
  | withValue (parent : Context) (key : Key) (val : GoValue)
  deriving DecidableEq, Repr

/-- The function `context.WithValue`. -/
def WithValue (parent : Context) (key : Key) (val : GoValue) : Context :=
  Context.withValue parent key val

/-- The method `Value(key)` of a context: the value of the innermost
`WithValue` with an equal key, nil when there is none. -/
def Context.Value : Context → Key → GoValue
  | Context.background, _ => GoValue.nil
  | Context.withValue parent k val, key => if k = key then val else parent.Value key

end context

namespace logging

open terrors

/-- The constant `ErrKey`. -/
def ErrKey : String := "error"

/-- The constant `loggerCtxKey`, of type `ctxKey`. -/
def loggerCtxKey : context.Key := context.Key.ctxKey "logger"

/-- The conversion `string(loggerCtxKey)`. -/
def loggerCtxKeyString : String := "logger"

/-- The constants of `zap_logger.go` for the keys of the output. -/
def callerKey : String := "caller"

/-- See `callerKey`. -/
def levelKey : String := "level"

/-- See `callerKey`. -/
def messageKey : String := "message"

/-- See `callerKey`. -/
def nameKey : String := "name"

/-- See `callerKey`. -/
def stacktraceKey : String := "stacktrace"

/-- See `callerKey`. -/
def timestampKey : String := "timestamp"

/-- The type `Fields`, a `map[string]interface{}`: its entries in the order
in which a `range` over the map visits them (any order can occur); the keys
of a map are pairwise different. -/
abbrev Fields := List (String × GoValue)

/-- The value of the map `fields` at `key`. -/
def Fields.get (fields : Fields) (key : String) : Option GoValue :=
  (fields.find? (fun kv => kv.1 = key)).map (fun kv => kv.2)

/-- The struct `ZapJSONLogger`; its field points to a `zap.Logger`. -/
structure ZapJSONLogger where
  logger : zap.Logger
  deriving DecidableEq, Repr

/-- The `ZapJSONLogger` structs allocated so far; the address of a struct is
its position. -/
abbrev Heap := List ZapJSONLogger

/-- The struct a `*ZapJSONLogger` points to; `none` for the nil pointer (the
dereference panics) and for an address that is not allocated. -/
def Heap.deref (h : Heap) (z : Option Nat) : Option ZapJSONLogger :=
  match z with
  | none => none
  | some a => h[a]?

/-- The allocation `&ZapJSONLogger{...}`: the heap with the new struct and its address. -/
def Heap.alloc (h : Heap) (obj : ZapJSONLogger) : Heap × Nat :=
  (h ++ [obj], h.length)

/-- A value of the interface `Logger`: nil, a `*ZapJSONLogger` or a
`*NoopLogger` (the two implementations of the package), or a value of an
implementation declared outside the package; the contents are as in `GoValue`. -/
inductive Logger where
  | nil
  | zapJSON (z : Option Nat)
  | noop (isNilPointer : Bool)
  | foreign (typeName : String) (isNil : Option Bool)
  deriving DecidableEq, Repr

/-- The conversion of a `Logger` to `interface{}`. -/
def Logger.toValue : Logger → GoValue
  | Logger.nil => GoValue.nil
  | Logger.zapJSON z => GoValue.zapJSONLogger z
  | Logger.noop p => GoValue.noopLogger p
  | Logger.foreign typeName isNil => GoValue.foreignLogger typeName isNil

/-- The type assertion `v.(Logger)`: `none` when it does not hold (`ok` is false). -/
def assertLogger : GoValue → Option Logger
  | GoValue.zapJSONLogger z => some (Logger.zapJSON z)
  | GoValue.noopLogger p => some (Logger.noop p)
  | GoValue.foreignLogger typeName isNil => some (Logger.foreign typeName isNil)
  | _ => none

/-- The call `reflect.ValueOf(logger).IsNil()`: whether the pointer in the
interface is nil; `none` when the call panics, which it does on the nil
interface (`reflect.ValueOf` gives the zero `Value`) and on a value of a kind
that cannot be nil. -/
def Logger.reflectIsNil : Logger → Option Bool
  | Logger.nil => none
  | Logger.zapJSON z => some z.isNone
  | Logger.noop p => some p
  | Logger.foreign _ isNil => isNil

/-- The struct `zapOptions`. -/
structure zapOptions where
  callerSkipCount : Int
  hooks : List zap.Hook
  deriving DecidableEq, Repr

/-- The function `defaultZapOptions`. -/
def defaultZapOptions : zapOptions :=
  { callerSkipCount := 1, hooks := [] }

/-- The interface `ZapOption`, with its two implementations `hooksOption`
and `callerCountOption`. -/
inductive ZapOption where
  | hooksOption (hooks : List zap.Hook)
  | callerCountOption (count : Int)
  deriving DecidableEq, Repr

/-- The method `apply` of a `ZapOption`. -/
def ZapOption.apply (o : ZapOption) (options : zapOptions) : zapOptions :=
  match o with
  | ZapOption.hooksOption hooks => { options with hooks := hooks }
  | ZapOption.callerCountOption count => { options with callerSkipCount := count }

/-- The function `stdJSONLoggerConfig`. -/
def stdJSONLoggerConfig (logLevel : String) : Except GoError zap.Config :=
  match zapcore.UnmarshalText logLevel with
  | Except.error err => Except.error err
  | Except.ok level =>
    Except.ok
      { Level := level
        Development := false
        Encoding := "json"
        OutputPaths := ["stdout"]
        ErrorOutputPaths := ["stderr"]
        EncoderConfig :=
          { TimeKey := timestampKey
            LevelKey := levelKey
            MessageKey := messageKey
            NameKey := nameKey
            StacktraceKey := stacktraceKey
            CallerKey := callerKey
            LineEnding := "\n" } }

/-- The function `zapLoggerFromConfig`: the heap after the call, the pointer
returned (`none` is nil) and the error returned. -/
def zapLoggerFromConfig (h : Heap) (config : zap.Config) (opts : List ZapOption) :
    Heap × Option Nat × GoError :=
  let zapOpts := opts.foldl (fun options opt => opt.apply options) defaultZapOptions
  match config.Build zapOpts.callerSkipCount zapOpts.hooks with
  | Except.error err => (h, none, err)
  | Except.ok logger =>
    let (h', a) := h.alloc { logger := logger }
    (h', some a, GoError.nil)

/-- The function `NewZapJSONLogger`. -/
def NewZapJSONLogger (h : Heap) (logLevel : String) (opts : List ZapOption) :
    Heap × Option Nat × GoError :=
  match stdJSONLoggerConfig logLevel with
  | Except.error err => (h, none, err)
  | Except.ok zapConfig => zapLoggerFromConfig h zapConfig opts

namespace ZapJSONLogger

/-- The method `(*ZapJSONLogger).Error`: the record emitted, if any; the
outer `none` is a panic (nil receiver). -/
def Error (h : Heap) (z : Option Nat) (msg : String) : Option (Option zap.Record) :=
  match h.deref z with
  | none => none
  | some obj => some (obj.logger.log zapcore.Level.ErrorLevel msg)

/-- The method `(*ZapJSONLogger).Warn`. -/
def Warn (h : Heap) (z : Option Nat) (msg : String) : Option (Option zap.Record) :=
  match h.deref z with
  | none => none
  | some obj => some (obj.logger.log zapcore.Level.WarnLevel msg)

/-- The method `(*ZapJSONLogger).Info`. -/
def Info (h : Heap) (z : Option Nat) (msg : String) : Option (Option zap.Record) :=
  match h.deref z with
  | none => none
  | some obj => some (obj.logger.log zapcore.Level.InfoLevel msg)

/-- The method `(*ZapJSONLogger).Debug`. -/
def Debug (h : Heap) (z : Option Nat) (msg : String) : Option (Option zap.Record) :=
  match h.deref z with
  | none => none
  | some obj => some (obj.logger.log zapcore.Level.DebugLevel msg)

/-- The method `(*ZapJSONLogger).WithFields`: the heap after the call and the
logger returned; `none` is a panic. -/
def WithFields (h : Heap) (z : Option Nat) (fields : Fields) : Option (Heap × Logger) :=
  let fieldList := fields.map (fun kv => zap.Any kv.1 kv.2)
  match h.deref z with
  | none => none
  | some obj =>
    let (h', a) := h.alloc { logger := obj.logger.With fieldList }
    some (h', Logger.zapJSON (some a))

/-- The method `(*ZapJSONLogger).WithField`. -/
def WithField (h : Heap) (z : Option Nat) (key : String) (value : GoValue) :
    Option (Heap × Logger) :=
  match h.deref z with
  | none => none
  | some obj =>
    let (h', a) := h.alloc { logger := obj.logger.With [zap.Any key value] }
    some (h', Logger.zapJSON (some a))

/-- The method `(*ZapJSONLogger).WithError`. -/
def WithError (h : Heap) (z : Option Nat) (err : GoError) : Option (Heap × Logger) :=
  match UnwrapInfoExtractor 1000 err with
  | none => none
  | some msg => WithField h z ErrKey (GoValue.str msg)

end ZapJSONLogger

/-- The state of the output the process writes its log to. -/
structure Sink where
  failed : Bool
  deriving DecidableEq, Repr

/-- The method `(*ZapJSONLogger).Flush`, with the state of the sink at the
call: it returns nil and touches nothing. -/
def ZapJSONLogger.Flush (_sink : Sink) (_z : Option Nat) : GoError :=
  GoError.nil

namespace NoopLogger

/-- The function `NewNoopLogger`. -/
def NewNoopLogger : Logger :=
  Logger.noop false

/-- The method `(*NoopLogger).WithField`: it returns the receiver. -/
def WithField (l : Bool) (_key : String) (_value : GoValue) : Logger :=
  Logger.noop l

/-- The method `(*NoopLogger).WithError`: it returns the receiver. -/
def WithError (l : Bool) (_err : GoError) : Logger :=
  Logger.noop l

/-- The method `(*NoopLogger).WithFields`: it returns the receiver. -/
def WithFields (l : Bool) (_fields : Fields) : Logger :=
  Logger.noop l

/-- The method `(*NoopLogger).Flush`. -/
def Flush (_sink : Sink) (_l : Bool) : GoError :=
  GoError.nil

/-- The methods `Error`, `Warn`, `Info` and `Debug` of `*NoopLogger`: nothing is emitted. -/
def emit (_l : Bool) (_msg : String) : Option zap.Record :=
  none

end NoopLogger

namespace Logger

/-- The call `l.WithFields(fields)` on a `Logger`; a call on the nil
interface panics. The methods of an implementation outside the package are
not part of the model: a call on such a value has no result here (`none`),
in this and in the next four definitions. -/
def WithFields (h : Heap) (l : Logger) (fields : Fields) : Option (Heap × Logger) :=
  match l with
  | Logger.nil => none
  | Logger.zapJSON z => ZapJSONLogger.WithFields h z fields
  | Logger.noop p => some (h, NoopLogger.WithFields p fields)
  | Logger.foreign _ _ => none

/-- The call `l.WithField(key, value)` on a `Logger`. -/
def WithField (h : Heap) (l : Logger) (key : String) (value : GoValue) :
    Option (Heap × Logger) :=
  match l with
  | Logger.nil => none
  | Logger.zapJSON z => ZapJSONLogger.WithField h z key value
  | Logger.noop p => some (h, NoopLogger.WithField p key value)
  | Logger.foreign _ _ => none

/-- The call `l.WithError(err)` on a `Logger`. -/
def WithError (h : Heap) (l : Logger) (err : GoError) : Option (Heap × Logger) :=
  match l with
  | Logger.nil => none
  | Logger.zapJSON z => ZapJSONLogger.WithError h z err
  | Logger.noop p => some (h, NoopLogger.WithError p err)
  | Logger.foreign _ _ => none

/-- The call `l.Flush()` on a `Logger`. -/
def Flush (sink : Sink) (l : Logger) : Option GoError :=
  match l with
  | Logger.nil => none
  | Logger.zapJSON z => some (ZapJSONLogger.Flush sink z)
  | Logger.noop p => some (NoopLogger.Flush sink p)
  | Logger.foreign _ _ => none

/-- The call `l.Info(msg)` on a `Logger`: the record emitted, if any. -/
def Info (h : Heap) (l : Logger) (msg : String) : Option (Option zap.Record) :=
  match l with
  | Logger.nil => none
  | Logger.zapJSON z => ZapJSONLogger.Info h z msg
  | Logger.noop p => some (NoopLogger.emit p msg)
  | Logger.foreign _ _ => none

/-- The fields a logger carries in heap `h`: those attached to the
`zap.Logger` of a `ZapJSONLogger`; a `NoopLogger` has no state and carries none. -/
def attached (h : Heap) (l : Logger) : List zap.Field :=
  match l with
  | Logger.zapJSON z =>
    match h.deref z with
    | some obj => obj.logger.fields
    | none => []
  | _ => []

/-- The value a logger carries under `key` in heap `h`. -/
def fieldValue (h : Heap) (l : Logger) (key : String) : Option GoValue :=
  ((attached h l).find? (fun f => f.Key = key)).map (fun f => f.Value)

end Logger

/-- The function `LoggerFromContext`; `none` when it panics. The condition
`!ok || reflect.ValueOf(logger).IsNil()` calls `IsNil` only when the type
assertion holds. -/
def LoggerFromContext (ctx : context.Context) : Option (Logger × GoError) :=
  match assertLogger (ctx.Value loggerCtxKey) with
  | none => some (Logger.nil, NewInvalidCtxValue loggerCtxKeyString)
  | some logger =>
    match logger.reflectIsNil with
    | none => none
    | some true => some (Logger.nil, NewInvalidCtxValue loggerCtxKeyString)
    | some false => some (logger, GoError.nil)

/-- The function `ContextWithLogger`. -/
def ContextWithLogger (ctx : context.Context) (logger : Logger) : context.Context :=
  context.WithValue ctx loggerCtxKey logger.toValue

end logging

namespace fmt

open terrors

/-- The function `fmt.Errorf(format, args...)` for a format without the verb
`%w`: an error of a standard-library type with the formatted message and no
`Unwrap` method. -/
def Errorf (format : String) (args : List Arg) : GoError :=
  GoError.foreign (Sprintf format args) GoError.nil

end fmt

namespace time

/-- A `time.Time` value, an instant; the modelled code only stores it. -/
structure Time where
  unixNano : Int
  deriving DecidableEq, Repr

end time

namespace orders

/-- The type `OrderStatus` of package `orders`, a string type. -/
abbrev OrderStatus := String

/-- The constant `OrderStatusPlaced`. -/
def OrderStatusPlaced : OrderStatus := "PLACED"

/-- The constant `OrderStatusDelivered`. -/
def OrderStatusDelivered : OrderStatus := "DELIVERED"

/-- The constant `OrderStatusTransit`. -/
def OrderStatusTransit : OrderStatus := "IN TRANSIT"

/-- The constant `OrderStatusCancelled`. -/
def OrderStatusCancelled : OrderStatus := "CANCELLED"

/-- The constant `OrderStatusOnHold`. -/
def OrderStatusOnHold : OrderStatus := "ON HOLD"

/-- The five values of the `const` block of `order.go`, in its order. -/
def definedStatuses : List OrderStatus :=
  [OrderStatusPlaced, OrderStatusDelivered, OrderStatusTransit, OrderStatusCancelled,
   OrderStatusOnHold]

/-- The struct `DeliveryEntry`. -/
structure DeliveryEntry where
  Timestamp : time.Time
  Message : String
  deriving DecidableEq, Repr

/-- The struct `Order`. -/
structure Order where
  CustomerID : String
  OrderID : String
  Address : String
  ProductID : String
  PaymentID : String
  Status : OrderStatus
  DeliveryEntries : List DeliveryEntry
  OrderedAt : time.Time
  DeliveredAt : time.Time
  deriving DecidableEq, Repr

end orders

namespace rest

open terrors
open fmt (Arg)

/-- The type `OrderStatus` of package `rest`, a string type. -/
abbrev OrderStatus := String

/-- The constant `OrderStatusPlaced` of package `rest`. -/
def OrderStatusPlaced : OrderStatus := "Placed"

/-- The constant `OrderStatusDelivered` of package `rest`. -/
def OrderStatusDelivered : OrderStatus := "Delivered"

/-- The constant `OrderStatusTransit` of package `rest`. -/
def OrderStatusTransit : OrderStatus := "In transit"

/-- The struct `OrderSummary`. -/
structure OrderSummary where
  OrderID : String
  CustomerID : String
  ProductID : String
  Status : OrderStatus
  deriving DecidableEq, Repr

/-- The struct `ListOrdersResponse`; its zero value has no summaries. -/
structure ListOrdersResponse where
  OrderSummaries : List OrderSummary
  deriving DecidableEq, Repr

/-- The function `orderStatusToREST` of `internal/rest/models.go`. -/
def orderStatusToREST (status : orders.OrderStatus) : OrderStatus × GoError :=
  if status = orders.OrderStatusPlaced ∨ status = orders.OrderStatusCancelled
      ∨ status = orders.OrderStatusOnHold then
    (OrderStatusPlaced, GoError.nil)
  else if status = orders.OrderStatusDelivered then (OrderStatusDelivered, GoError.nil)
  else if status = orders.OrderStatusTransit then (OrderStatusTransit, GoError.nil)
  else ("", fmt.Errorf "Unexpected status value: %s" [Arg.str status])

/-- The loop of `internalOrdersToSummaries` over the orders left, on the
response built so far. -/
def summariesLoop : List orders.Order → ListOrdersResponse → ListOrdersResponse × GoError
  | [], resp => (resp, GoError.nil)
  | order :: rest, resp =>
    match orderStatusToREST order.Status with
    | (status, err) =>
      if err.isNil = false then ({ OrderSummaries := [] }, err)
      else
        let summary : OrderSummary :=
          { OrderID := order.OrderID
            CustomerID := order.CustomerID
            ProductID := order.ProductID
            Status := status }
        summariesLoop rest { resp with OrderSummaries := resp.OrderSummaries ++ [summary] }

/-- The function `internalOrdersToSummaries`. -/
def internalOrdersToSummaries (orders : List orders.Order) : ListOrdersResponse × GoError :=
  summariesLoop orders { OrderSummaries := [] }

end rest

namespace chapter2

open terrors
open fmt (Arg)

/-- The type `RESTOrderStatus` of package `main` of chapter 2, a string type. -/
abbrev RESTOrderStatus := String

/-- The constant `RESTOrderStatusPlaced`. -/
def RESTOrderStatusPlaced : RESTOrderStatus := "Placed"

/-- The constant `RESTOrderStatusDelivered`. -/
def RESTOrderStatusDelivered : RESTOrderStatus := "Delivered"

/-- The constant `RESTOrderStatusTransit`. -/
def RESTOrderStatusTransit : RESTOrderStatus := "In transit"

/-- The function `orderStatusToREST` of `main.go` of chapter 2. Package `main`
declares `OrderStatus` and its five constants with the values of package
`orders`, which stand for them here. -/
def orderStatusToREST (status : orders.OrderStatus) : RESTOrderStatus × GoError :=
  if status = orders.OrderStatusPlaced ∨ status = orders.OrderStatusCancelled
      ∨ status = orders.OrderStatusOnHold then
    (RESTOrderStatusPlaced, GoError.nil)
  else if status = orders.OrderStatusDelivered then (RESTOrderStatusDelivered, GoError.nil)
  else if status = orders.OrderStatusTransit then (RESTOrderStatusTransit, GoError.nil)
  else ("", fmt.Errorf "Unexpected status value: %s" [Arg.str status])

/-- The loop of `internalOrdersToRESTSummaries` of chapter 2. The structs
`Order`, `OrderSummary` and `ListOrdersResponse` of package `main` have the
fields of those of packages `orders` and `rest`, which stand for them here. -/
def summariesLoop :
    List orders.Order → rest.ListOrdersResponse → rest.ListOrdersResponse × GoError
  | [], resp => (resp, GoError.nil)
  | order :: orders, resp =>
    match orderStatusToREST order.Status with
    | (status, err) =>
      if err.isNil = false then ({ OrderSummaries := [] }, err)
      else
        let summary : rest.OrderSummary :=
          { OrderID := order.OrderID
            CustomerID := order.CustomerID
            ProductID := order.ProductID
            Status := status }
        summariesLoop orders { resp with OrderSummaries := resp.OrderSummaries ++ [summary] }

/-- The function `internalOrdersToRESTSummaries` of chapter 2. -/
def internalOrdersToRESTSummaries (orders : List orders.Order) :
    rest.ListOrdersResponse × GoError :=
  summariesLoop orders { OrderSummaries := [] }

end chapter2

namespace terrors

/-- The struct type of the package that an error value is a pointer to;
`none` for nil, for the wrapper and for an error of a type outside the package. -/
def GoError.structTypeOf : GoError → Option StructType
  | GoError.typed _ _ v => some v.structType
  | _ => none

end terrors

/-! ## Properties -/

namespace terrors

open fmt (Sprintf Arg expand)

theorem Sprintf_pair (a b : String) :
    Sprintf "%s %s" [Arg.str a, Arg.str b] = a ++ " " ++ b := by
  apply String.ext
  simp [Sprintf, expand]

theorem Sprintf_invalid_inputs (list : String) :
    Sprintf "invalid input(s): %s" [Arg.str list] = "invalid input(s): " ++ list := by
  apply String.ext
  simp [Sprintf, expand]

theorem Sprintf_service_unavailable (service : String) :
    Sprintf "%s service unavailable" [Arg.str service] = service ++ " service unavailable" := by
  apply String.ext
  simp [Sprintf, expand]

/-- From a non-zero index on, the loop of `NewInvalidInput` appends to the
builder what `String.intercalate` appends to its accumulator. -/
theorem invalidInputLoop_succ (inputs : List InputAndMsg) (i : Nat) (builder : String)
    (hi : i ≠ 0) :
    invalidInputLoop inputs i builder
      = String.intercalate.go builder ", " (inputs.map renderInput) := by
  induction inputs generalizing i builder with
  | nil => simp [invalidInputLoop, String.intercalate.go]
  | cons p rest ih =>
    simp only [invalidInputLoop, List.map_cons, String.intercalate.go, ne_eq, hi,
      not_false_eq_true, if_true]
    rw [ih (i + 1) _ (Nat.succ_ne_zero i), Sprintf_pair]
    rfl

theorem invalidInputLoop_zero (inputs : List InputAndMsg) :
    invalidInputLoop inputs 0 "" = ", ".intercalate (inputs.map renderInput) := by
  cases inputs with
  | nil => rfl
  | cons p rest =>
    simp only [invalidInputLoop, List.map_cons, String.intercalate, ne_eq, not_true_eq_false,
      if_false]
    rw [invalidInputLoop_succ rest (0 + 1) _ (Nat.succ_ne_zero 0), Sprintf_pair]
    rfl

/-- C1: for all strings `resource`, `field`, `value` and every cause `err`
(nil included), `NewNotFound(resource, field, value, err).Error()` returns
`resource ++ " was not found with " ++ field ++ ": " ++ value`; and
`NewNotFound("order", "id", "order-99", nil).Error()` returns exactly
`"order was not found with id: order-99"`. -/
theorem NewNotFound_Error (resource field value : String) (err : GoError) :
    (NewNotFound resource field value err).Error
        = some (resource ++ " was not found with " ++ field ++ ": " ++ value)
      ∧ (NewNotFound "order" "id" "order-99" GoError.nil).Error
        = some "order was not found with id: order-99" := by
  refine ⟨?_, by decide⟩
  simp only [NewNotFound, newBaseError, GoError.Error, baseError.Error, Option.some.injEq]
  apply String.ext
  simp [Sprintf, expand]

/-- C2: for every non-empty list of `(Input, Msg)` pairs and every cause,
`NewInvalidInput(inputs, err).Error()` returns `"invalid input(s): "` followed
by the entries `Input ++ " " ++ Msg`, in the order given, joined with `", "`;
and the single pair `("customerID", "must not be empty")` renders as
`"invalid input(s): customerID must not be empty"`. -/
theorem NewInvalidInput_Error (inputs : List InputAndMsg) (err : GoError)
    (hne : inputs ≠ []) :
    (NewInvalidInput inputs err).Error
        = some ("invalid input(s): "
            ++ ", ".intercalate (inputs.map fun p => p.Input ++ " " ++ p.Msg))
      ∧ (NewInvalidInput [{ Input := "customerID", Msg := "must not be empty" }] err).Error
        = some "invalid input(s): customerID must not be empty" := by
  refine ⟨?_, rfl⟩
  cases inputs with
  | nil => exact absurd rfl hne
  | cons p rest =>
    simp only [NewInvalidInput, newBaseError, GoError.Error, baseError.Error]
    rw [invalidInputLoop_zero, Sprintf_invalid_inputs]
    rfl

/-- Witness of C2 on a list of two pairs. -/
theorem NewInvalidInput_Error_witness :
    ([{ Input := "customerID", Msg := "must not be empty" },
      { Input := "limit", Msg := "must be positive" }] : List InputAndMsg) ≠ []
      ∧ (NewInvalidInput
          [{ Input := "customerID", Msg := "must not be empty" },
           { Input := "limit", Msg := "must be positive" }] GoError.nil).Error
        = some "invalid input(s): customerID must not be empty, limit must be positive" :=
  ⟨by decide,
    (NewInvalidInput_Error
      [{ Input := "customerID", Msg := "must not be empty" },
       { Input := "limit", Msg := "must be positive" }] GoError.nil (by decide)).1.trans
      (by decide)⟩

/-- C3: for every service, retry interval `r` and cause,
`NewServiceUnavailableWithRetryInterval(service, r, err).Error()` equals
`NewServiceUnavailable(service, err).Error()` and both are
`service ++ " service unavailable"`; the retry interval is stored in the
`RetryInterval` field only (the constructed struct has `RetryInterval = r`
and the message, the cause and `Service` of the constructor without it). -/
theorem NewServiceUnavailable_Error (service : String) (r : Int) (err : GoError) :
    (NewServiceUnavailableWithRetryInterval service r err).Error
        = (NewServiceUnavailable service err).Error
      ∧ (NewServiceUnavailable service err).Error = some (service ++ " service unavailable")
      ∧ NewServiceUnavailableWithRetryInterval service r err
        = GoError.typed err (service ++ " service unavailable")
            (Variant.ServiceUnavailable service r) := by
  refine ⟨rfl, ?_, ?_⟩
  · simp only [NewServiceUnavailable, newBaseError, GoError.Error, baseError.Error,
      Sprintf_service_unavailable]
  · simp only [NewServiceUnavailableWithRetryInterval, newBaseError,
      Sprintf_service_unavailable]

/-- C4, refuted as stated: an `InternalError` that wraps a `NotFound` passes
the `errors.As` test against the sentinel of another variant, `NotFoundType`. -/
theorem As_other_sentinel_counterexample :
    NotFoundType ≠ InternalErrorType
      ∧ errors.As
          (NewInternalError "boom" (NewNotFound "order" "id" "order-99" GoError.nil))
          NotFoundType = true := by
  decide

/-- The walk of `errors.As` succeeds exactly when the wrap chain of the error
holds a pointer to the struct type looked for. -/
theorem asLoop_iff_chain (e : GoError) (t : StructType) :
    errors.asLoop e t = true ↔ ∃ x ∈ chain e, x.structTypeOf = some t := by
  induction e with
  | nil => simp [errors.asLoop, chain]
  | foreign msg cause ih =>
    have hx : (GoError.foreign msg cause).structTypeOf = none := rfl
    simp only [errors.asLoop, chain, List.mem_cons, exists_eq_or_imp, hx, false_or,
      reduceCtorEq]
    exact ih
  | foreignPresentable msg presentable cause ih =>
    have hx : (GoError.foreignPresentable msg presentable cause).structTypeOf = none := rfl
    simp only [errors.asLoop, chain, List.mem_cons, exists_eq_or_imp, hx, false_or,
      reduceCtorEq]
    exact ih
  | typed Err msg v ih =>
    have hx : (GoError.typed Err msg v).structTypeOf = some v.structType := rfl
    simp only [errors.asLoop, chain, List.mem_cons, exists_eq_or_imp, hx, Option.some.injEq]
    by_cases hv : v.structType = t
    · simp [hv]
    · simp only [hv, if_false, false_or]
      exact ih
  | presentableWrapper err ih =>
    have hx : (GoError.presentableWrapper err).structTypeOf = none := rfl
    simp only [errors.asLoop, chain, List.mem_cons, exists_eq_or_imp, hx, false_or,
      reduceCtorEq]
    exact ih

theorem As_iff_chain (e s : GoError) (t : StructType) (hs : s.structTypeOf = some t) :
    errors.As e s = true ↔ ∃ x ∈ chain e, x.structTypeOf = s.structTypeOf := by
  cases s with
  | typed Err msg v =>
    simp only [GoError.structTypeOf, Option.some.injEq] at hs
    simp only [errors.As, GoError.structTypeOf]
    exact asLoop_iff_chain e v.structType
  | nil => simp [GoError.structTypeOf] at hs
  | foreign msg cause => simp [GoError.structTypeOf] at hs
  | foreignPresentable msg presentable cause => simp [GoError.structTypeOf] at hs
  | presentableWrapper err => simp [GoError.structTypeOf] at hs

theorem sentinel_structTypeOf (s : GoError) (hs : s ∈ sentinels) :
    ∃ t, s.structTypeOf = some t := by
  simp only [sentinels, List.mem_cons, List.mem_singleton, List.not_mem_nil, or_false] at hs
  rcases hs with h | h | h | h | h | h | h | h | h | h | h | h <;> subst h <;> exact ⟨_, rfl⟩

/-- C4, amended: for every call `c` of a variant constructor, with any
arguments and any wrapped cause, `errors.As` against the variant's own
sentinel succeeds; against the sentinel `s` of any other variant it succeeds
exactly when the cause chain (the wrapped cause, what that unwraps to, and so
on, through errors of any type) holds an error of that other variant; so it
gives what it gives on the wrapped cause, and it fails when the constructed
error wraps nil. -/
theorem As_sentinel (c : Call) :
    c.sentinel ∈ sentinels
      ∧ errors.As c.eval c.sentinel = true
      ∧ (∀ s ∈ sentinels, s ≠ c.sentinel →
          errors.As c.eval s = errors.As (errors.Unwrap c.eval) s)
      ∧ (∀ s ∈ sentinels, s ≠ c.sentinel → errors.Unwrap c.eval = GoError.nil →
          errors.As c.eval s = false)
      ∧ (∀ s ∈ sentinels, s ≠ c.sentinel →
          (errors.As c.eval s = true
            ↔ ∃ x ∈ chain (errors.Unwrap c.eval), x.structTypeOf = s.structTypeOf))
      ∧ (∀ s ∈ sentinels,
          (errors.As c.eval s = true ↔ ∃ x ∈ chain c.eval, x.structTypeOf = s.structTypeOf))
      ∧ chain c.eval = c.eval :: chain (errors.Unwrap c.eval)
      ∧ c.eval.structTypeOf = c.sentinel.structTypeOf := by
  have hnil : ∀ s, errors.As GoError.nil s = false := by
    intro s
    cases s <;> rfl
  have h3 : ∀ s ∈ sentinels, s ≠ c.sentinel →
      errors.As c.eval s = errors.As (errors.Unwrap c.eval) s := by
    intro s hs hne
    simp only [sentinels, List.mem_cons, List.mem_singleton, List.not_mem_nil, or_false] at hs
    cases c <;> rcases hs with h | h | h | h | h | h | h | h | h | h | h | h <;> subst h <;>
      first
      | exact absurd rfl hne
      | rfl
  refine ⟨?_, ?_, h3, ?_, ?_, ?_, ?_, ?_⟩
  · cases c <;> simp [sentinels, Call.sentinel]
  · cases c <;> rfl
  · intro s hs hne hu
    rw [h3 s hs hne, hu, hnil]
  · intro s hs hne
    obtain ⟨t, ht⟩ := sentinel_structTypeOf s hs
    rw [h3 s hs hne]
    exact As_iff_chain _ s t ht
  · intro s hs
    obtain ⟨t, ht⟩ := sentinel_structTypeOf s hs
    exact As_iff_chain _ s t ht
  · cases c <;> rfl
  · cases c <;> rfl

/-- Witness of the amended C4: an `InternalError` without a cause matches
`InternalErrorType` and does not match `NotFoundType`; an `InternalError`
whose cause is a presentable wrapper around an error of another package that
wraps a `NotFound` matches `NotFoundType`. -/
theorem As_sentinel_witness :
    errors.As (NewInternalError "boom" GoError.nil) InternalErrorType = true
      ∧ errors.As (NewInternalError "boom" GoError.nil) NotFoundType = false
      ∧ errors.As
          (NewInternalError "boom"
            (Presentable
              (GoError.foreign "lookup" (NewNotFound "order" "id" "order-99" GoError.nil))))
          NotFoundType = true :=
  ⟨(As_sentinel (Call.NewInternalError "boom" GoError.nil)).2.1,
    (As_sentinel (Call.NewInternalError "boom" GoError.nil)).2.2.2.1 NotFoundType
      (by decide) (by decide) rfl,
    ((As_sentinel
        (Call.NewInternalError "boom"
          (Presentable
            (GoError.foreign "lookup"
              (NewNotFound "order" "id" "order-99" GoError.nil))))).2.2.2.2.1
      NotFoundType (by decide) (by decide)).mpr
      ⟨NewNotFound "order" "id" "order-99" GoError.nil, by decide, rfl⟩⟩

/-- C5, refuted as stated: `NewInvalidCtxValue` has no cause parameter, so no
call of it returns an error that unwraps to the cause `errors.New("boom")`. -/
theorem NewInvalidCtxValue_cause_counterexample :
    ¬ ∃ key : String,
        errors.Unwrap (NewInvalidCtxValue key) = GoError.foreign "boom" GoError.nil := by
  rintro ⟨key, h⟩
  exact absurd h (by simp [NewInvalidCtxValue, newBaseError, errors.Unwrap, GoError.Unwrap,
    baseError.Unwrap])

/-- C5, amended: a constructor call with an `err` argument returns an error
whose `Unwrap()` is exactly that argument (nil when nil is given), with the
argument's own message and cause; every variant other than `NotImplemented`
and `InvalidCtxValue` has such a constructor, for every cause; so does
`NewBaseError`; and the errors of `NewInvalidCtxValue` and `NewNilParameter`,
which take no cause, unwrap to nil. -/
theorem constructor_wraps_cause :
    (∀ (c : Call) (err : GoError), c.errArg = some err →
        errors.Unwrap c.eval = err
          ∧ (errors.Unwrap c.eval).Error = err.Error
          ∧ errors.Unwrap (errors.Unwrap c.eval) = errors.Unwrap err)
      ∧ (∀ s ∈ sentinels, s ≠ NotImplementedType → s ≠ InvalidCtxValueType →
          ∀ err : GoError, ∃ c : Call, c.sentinel = s ∧ c.errArg = some err)
      ∧ (∀ (msg : String) (err : GoError), errors.Unwrap (NewBaseError msg err) = err)
      ∧ (∀ key : String, errors.Unwrap (NewInvalidCtxValue key) = GoError.nil)
      ∧ (∀ name : String, errors.Unwrap (NewNilParameter name) = GoError.nil) := by
  refine ⟨?_, ?_, fun _ _ => rfl, fun _ => rfl, fun _ => rfl⟩
  · intro c err h
    have hu : errors.Unwrap c.eval = err := by
      cases c <;> simp only [Call.errArg, Option.some.injEq, reduceCtorEq] at h <;> subst h <;> rfl
    rw [hu]
    exact ⟨rfl, rfl, rfl⟩
  · intro s hs h1 h2 err
    simp only [sentinels, List.mem_cons, List.mem_singleton, List.not_mem_nil, or_false] at hs
    rcases hs with h | h | h | h | h | h | h | h | h | h | h | h <;> subst h
    · exact ⟨Call.NewInternalError "" err, rfl, rfl⟩
    · exact ⟨Call.NewUnknownError "" err, rfl, rfl⟩
    · exact absurd rfl h1
    · exact ⟨Call.NewInvalidInput [] err, rfl, rfl⟩
    · exact ⟨Call.NewInvalidParameter "" "" err, rfl, rfl⟩
    · exact ⟨Call.NewNotFound "" "" "" err, rfl, rfl⟩
    · exact ⟨Call.NewServiceUnavailable "" err, rfl, rfl⟩
    · exact ⟨Call.NewStateConflict "" err, rfl, rfl⟩
    · exact ⟨Call.NewUnauthenticated "" err, rfl, rfl⟩
    · exact ⟨Call.NewForbidden "" err, rfl, rfl⟩
    · exact ⟨Call.NewUnsatisfiableRange 0 none 0 err, rfl, rfl⟩
    · exact absurd rfl h2

/-- Witness of the amended C5: a `NotFound` built over `errors.New("boom")`
unwraps to it, and the `NotFound` variant has a constructor call with that cause. -/
theorem constructor_wraps_cause_witness :
    errors.Unwrap (NewNotFound "order" "id" "order-99" (GoError.foreign "boom" GoError.nil))
        = GoError.foreign "boom" GoError.nil
      ∧ ∃ c : Call, c.sentinel = NotFoundType
          ∧ c.errArg = some (GoError.foreign "boom" GoError.nil) :=
  ⟨(constructor_wraps_cause.1
      (Call.NewNotFound "order" "id" "order-99" (GoError.foreign "boom" GoError.nil))
      (GoError.foreign "boom" GoError.nil) rfl).1,
    constructor_wraps_cause.2.1 NotFoundType (by decide) (by decide) (by decide)
      (GoError.foreign "boom" GoError.nil)⟩

/-- C6: for every error `e`, `IsPresentable(Presentable(e))` is true; and for
every error built by a variant constructor or by `NewBaseError`,
`IsPresentable` is false. -/
theorem IsPresentable_Presentable :
    (∀ e : GoError, IsPresentable (Presentable e) = true)
      ∧ (∀ c : Call, IsPresentable c.eval = false)
      ∧ (∀ (msg : String) (err : GoError), IsPresentable (NewBaseError msg err) = false) := by
  refine ⟨fun _ => rfl, ?_, fun _ _ => rfl⟩
  intro c
  cases c <;> rfl

/-- C7: presentability does not pass through wrapping. For every error `e`
and every constructor call `c` whose cause is `Presentable(e)`, the outer
error is not presentable and `PresentableErrorMsg` returns the fallback,
although what it unwraps to is presentable; the same holds for
`NewBaseError(msg, Presentable(e))`. -/
theorem presentable_not_transitive (c : Call) (e : GoError) (msg fallback : String)
    (hc : c.errArg = some (Presentable e)) :
    (IsPresentable c.eval = false
        ∧ PresentableErrorMsg c.eval fallback = some fallback
        ∧ IsPresentable (errors.Unwrap c.eval) = true)
      ∧ (IsPresentable (NewBaseError msg (Presentable e)) = false
        ∧ PresentableErrorMsg (NewBaseError msg (Presentable e)) fallback = some fallback
        ∧ IsPresentable (errors.Unwrap (NewBaseError msg (Presentable e))) = true) := by
  refine ⟨?_, rfl, rfl, rfl⟩
  cases c <;> simp only [Call.errArg, Option.some.injEq, reduceCtorEq] at hc <;> subst hc <;>
    exact ⟨rfl, rfl, rfl⟩

/-- Witness of C7: `NewInternalError("db down", Presentable(errors.New("bad id")))`
is not presentable and yields the fallback. -/
theorem presentable_not_transitive_witness :
    IsPresentable
        (NewInternalError "db down" (Presentable (GoError.foreign "bad id" GoError.nil)))
        = false
      ∧ PresentableErrorMsg
          (NewInternalError "db down" (Presentable (GoError.foreign "bad id" GoError.nil)))
          "something went wrong" = some "something went wrong"
      ∧ IsPresentable
          (errors.Unwrap
            (NewInternalError "db down" (Presentable (GoError.foreign "bad id" GoError.nil))))
        = true :=
  (presentable_not_transitive
    (Call.NewInternalError "db down" (Presentable (GoError.foreign "bad id" GoError.nil)))
    (GoError.foreign "bad id" GoError.nil) "" "something went wrong" rfl).1

/-- What `PresentableErrorMsg` returns: the fallback for an error that is not
presentable, `e.Error()` for the wrapper `Presentable(e)` (the message of `e`
when `e.Error()` returns, a panic when it panics), and the result of
`PresentableError()` for an implementor of the interface outside the package. -/
theorem PresentableErrorMsg_cases (err : GoError) (msg : String) :
    (IsPresentable err = false → PresentableErrorMsg err msg = some msg)
      ∧ (∀ e : GoError, PresentableErrorMsg (Presentable e) msg = e.Error)
      ∧ (∀ (e : GoError) (m : String), e.Error = some m →
          PresentableErrorMsg (Presentable e) msg = some m)
      ∧ (∀ (m p : String) (cause : GoError),
          PresentableErrorMsg (GoError.foreignPresentable m p cause) msg = some p) := by
  refine ⟨?_, fun _ => rfl, fun _ _ h => h, fun _ _ _ => rfl⟩
  intro h
  cases err <;> first | rfl | exact absurd h (by simp [IsPresentable])

/-- C8, at the failing input: an error of a type that implements the exported
interface `PresentableError`, with `Error()` `"db: connection refused"` and
`PresentableError()` `"try again later"`, is presentable, and
`PresentableErrorMsg` returns `"try again later"`, which is not its `Error()`. -/
theorem PresentableErrorMsg_other_implementor :
    IsPresentable
        (GoError.foreignPresentable "db: connection refused" "try again later" GoError.nil)
        = true
      ∧ (GoError.foreignPresentable "db: connection refused" "try again later"
          GoError.nil).Error = some "db: connection refused"
      ∧ PresentableErrorMsg
          (GoError.foreignPresentable "db: connection refused" "try again later" GoError.nil)
          "something went wrong" = some "try again later"
      ∧ PresentableErrorMsg
          (GoError.foreignPresentable "db: connection refused" "try again later" GoError.nil)
          "something went wrong"
        ≠ (GoError.foreignPresentable "db: connection refused" "try again later"
            GoError.nil).Error := by
  decide

/-- C9: the wrapper `w = Presentable(e)` forwards to `e`: `w.Error()` is
`e.Error()`, `w.Unwrap()` (and so `errors.Unwrap(w)`) is exactly `e`, and
`w.PresentableError()` is `w.Error()`. -/
theorem Presentable_forwards (e : GoError) :
    (Presentable e).Error = e.Error
      ∧ (Presentable e).Unwrap = e
      ∧ errors.Unwrap (Presentable e) = e
      ∧ presentableWrapper.PresentableError (Presentable e) = (Presentable e).Error :=
  ⟨rfl, rfl, rfl, rfl⟩

theorem chain_of_isNil {e : GoError} (h : e.isNil = true) : chain e = [] := by
  cases e <;> simp_all [GoError.isNil, chain]

theorem chain_of_not_isNil {e : GoError} (h : e.isNil = false) :
    chain e = e :: chain (errors.Unwrap e) := by
  cases e <;> simp_all [GoError.isNil, chain, errors.Unwrap, GoError.Unwrap, baseError.Unwrap]

/-- The loop of `UnwrapInfoExtractor` with `k` iterations left appends to the
builder the messages of the next `k` errors of the chain, each after `": "`. -/
theorem unwrapLoop_chain (k : Nat) (maxDepth i : Int) (err : GoError) (builder : String)
    (hk : (maxDepth - i).toNat = k) :
    unwrapLoop GoError.ops maxDepth i err builder
      = (messages ((chain (errors.Unwrap err)).take k)).map
          (String.intercalate.go builder ": ") := by
  induction k generalizing i err builder with
  | zero =>
    have hi : ¬ i < maxDepth := by omega
    rw [unwrapLoop]
    simp [hi, messages, String.intercalate.go]
  | succ k ih =>
    have hi : i < maxDepth := by omega
    rw [unwrapLoop]
    simp only [hi, dite_true, GoError.ops]
    cases hn : (errors.Unwrap err).isNil with
    | true =>
      simp [chain_of_isNil hn, messages, String.intercalate.go]
    | false =>
      rw [chain_of_not_isNil hn, List.take_succ_cons]
      cases hm : (errors.Unwrap err).Error with
      | none => simp [messages, hm]
      | some m =>
        have ih2 := ih (i + 1) (errors.Unwrap err) (builder ++ (": " ++ m)) (by omega)
        simp only [GoError.ops] at ih2
        simp only [Bool.false_eq_true, if_false, ih2, messages, hm]
        cases messages (List.take k (chain (errors.Unwrap (errors.Unwrap err)))) with
        | none => rfl
        | some ms =>
          simp only [Option.map_some', String.intercalate.go, String.append_assoc]

/-- C10: for every error `e0` and every `maxDepth ≥ 1`,
`UnwrapInfoExtractor(maxDepth)(e0)` is the messages of the first
`min(n, maxDepth)` errors of the wrap chain of `e0` (of length `n`), joined
with `": "` (and panics exactly when `Error()` panics on one of them). So for
a chain `A -> B -> C` with messages `ma`, `mb`, `mc`, a depth of at least 3
gives `ma ++ ": " ++ mb ++ ": " ++ mc` and depth 1 gives `ma`. -/
theorem UnwrapInfoExtractor_chain (maxDepth : Int) (e0 : GoError) (hd : 1 ≤ maxDepth) :
    UnwrapInfoExtractor maxDepth e0
        = (messages ((chain e0).take maxDepth.toNat)).map (String.intercalate ": ")
      ∧ ((chain e0).take maxDepth.toNat).length = min (chain e0).length maxDepth.toNat
      ∧ (∀ (a b c : GoError) (ma mb mc : String), chain e0 = [a, b, c] →
          a.Error = some ma → b.Error = some mb → c.Error = some mc →
          (3 ≤ maxDepth → UnwrapInfoExtractor maxDepth e0
              = some (ma ++ ": " ++ mb ++ ": " ++ mc))
            ∧ UnwrapInfoExtractor 1 e0 = some ma) := by
  have main : ∀ d : Int, 1 ≤ d → UnwrapInfoExtractor d e0
      = (messages ((chain e0).take d.toNat)).map (String.intercalate ": ") := by
    intro d hd1
    obtain ⟨k, hk⟩ : ∃ k : Nat, d.toNat = k + 1 := ⟨d.toNat - 1, by omega⟩
    rw [UnwrapInfoExtractor, unwrapInfo]
    simp only [GoError.ops]
    cases hn : e0.isNil with
    | true => simp [chain_of_isNil hn, messages, String.intercalate]
    | false =>
      rw [chain_of_not_isNil hn, hk, List.take_succ_cons]
      cases hm : e0.Error with
      | none => simp [messages, hm]
      | some m =>
        have hl := unwrapLoop_chain k d 1 e0 ("" ++ m) (by omega)
        simp only [GoError.ops] at hl
        simp only [Bool.false_eq_true, if_false, hl, messages, hm]
        cases messages (List.take k (chain (errors.Unwrap e0))) with
        | none => rfl
        | some ms => simp only [Option.map_some', String.intercalate, String.empty_append]
  refine ⟨main maxDepth hd, ?_, ?_⟩
  · simp [List.length_take, Nat.min_comm]
  · intro a b c ma mb mc hch ha hb hc
    constructor
    · intro h3
      obtain ⟨k, hk⟩ : ∃ k : Nat, maxDepth.toNat = k + 3 := ⟨maxDepth.toNat - 3, by omega⟩
      rw [main maxDepth hd, hch, hk]
      simp [messages, ha, hb, hc, String.intercalate, String.intercalate.go]
    · rw [main 1 (le_refl 1), hch]
      simp [messages, ha, String.intercalate, String.intercalate.go]

/-- Witness of C10: the chain `InternalError -> NotFound -> errors.New("EOF")`
flattened to depth 3 and to depth 1. -/
theorem UnwrapInfoExtractor_chain_witness :
    (1 : Int) ≤ 3
      ∧ UnwrapInfoExtractor 3
          (NewInternalError "lookup failed"
            (NewNotFound "order" "id" "order-99" (GoError.foreign "EOF" GoError.nil)))
        = some ("an internal error occurred: lookup failed" ++ ": "
            ++ "order was not found with id: order-99" ++ ": " ++ "EOF")
      ∧ UnwrapInfoExtractor 1
          (NewInternalError "lookup failed"
            (NewNotFound "order" "id" "order-99" (GoError.foreign "EOF" GoError.nil)))
        = some "an internal error occurred: lookup failed" :=
  have h := (UnwrapInfoExtractor_chain 3
    (NewInternalError "lookup failed"
      (NewNotFound "order" "id" "order-99" (GoError.foreign "EOF" GoError.nil)))
    (by decide)).2.2
      (NewInternalError "lookup failed"
        (NewNotFound "order" "id" "order-99" (GoError.foreign "EOF" GoError.nil)))
      (NewNotFound "order" "id" "order-99" (GoError.foreign "EOF" GoError.nil))
      (GoError.foreign "EOF" GoError.nil)
      "an internal error occurred: lookup failed"
      "order was not found with id: order-99"
      "EOF" rfl (by decide) (by decide) rfl
  ⟨by decide, h.1 (by decide), h.2⟩

end terrors

namespace terrors

theorem intercalate_go_snoc (acc sep m : String) (l : List String) :
    String.intercalate.go acc sep (l ++ [m]) = String.intercalate.go acc sep l ++ sep ++ m := by
  induction l generalizing acc with
  | nil => simp [String.intercalate.go]
  | cons a l ih => simp [String.intercalate.go, ih]

theorem intercalate_snoc (sep m : String) (l : List String) (hl : l ≠ []) :
    sep.intercalate (l ++ [m]) = sep.intercalate l ++ sep ++ m := by
  cases l with
  | nil => exact absurd rfl hl
  | cons a l => simp [String.intercalate, intercalate_go_snoc]

/-- The instrumented loop returns what the loop returns, calls `errors.Unwrap`
at most once per remaining iteration and writes at most one message per
remaining iteration; the builder stays the written messages joined with `": "`. -/
theorem unwrapLoopRun_spec {E : Type} (ops : ErrorOps E) (k : Nat) (maxDepth i : Int)
    (err : E) (builder : String) (u : Nat) (w : List String)
    (hk : (maxDepth - i).toNat = k) :
    (unwrapLoopRun ops maxDepth i err builder u w).result = unwrapLoop ops maxDepth i err builder
      ∧ (unwrapLoopRun ops maxDepth i err builder u w).unwraps ≤ u + k
      ∧ (unwrapLoopRun ops maxDepth i err builder u w).written.length ≤ w.length + k
      ∧ (w ≠ [] → builder = ": ".intercalate w →
          ∀ s, (unwrapLoopRun ops maxDepth i err builder u w).result = some s →
            s = ": ".intercalate (unwrapLoopRun ops maxDepth i err builder u w).written) := by
  induction k generalizing i err builder u w with
  | zero =>
    have hi : ¬ i < maxDepth := by omega
    rw [unwrapLoopRun, unwrapLoop]
    simp only [hi, dite_false, Nat.add_zero, Nat.le_refl, true_and, Option.some.injEq]
    intro _ hb s hs
    rw [← hs, hb]
  | succ k ih =>
    have hi : i < maxDepth := by omega
    rw [unwrapLoopRun, unwrapLoop]
    simp only [hi, dite_true]
    cases hn : ops.isNil (ops.Unwrap err) with
    | true =>
      simp only [if_true, Option.some.injEq, true_and]
      refine ⟨by omega, by omega, ?_⟩
      intro _ hb s hs
      rw [← hs, hb]
    | false =>
      cases hm : ops.Error (ops.Unwrap err) with
      | none =>
        simp only [Bool.false_eq_true, if_false, true_and]
        refine ⟨by omega, by omega, ?_⟩
        intro _ _ s hs
        exact absurd hs (by simp)
      | some m =>
        simp only [Bool.false_eq_true, if_false]
        obtain ⟨h1, h2, h3, h4⟩ := ih (i + 1) (ops.Unwrap err) (builder ++ (": " ++ m)) (u + 1)
          (w ++ [m]) (by omega)
        refine ⟨h1, by omega, ?_, ?_⟩
        · simp only [List.length_append, List.length_singleton] at h3
          omega
        · intro hw hb
          apply h4 (by simp)
          rw [intercalate_snoc _ _ _ hw, hb, String.append_assoc]

end terrors

namespace terrors

theorem chain_Unwrap_length (e : GoError) :
    (chain (errors.Unwrap e)).length = (chain e).length - 1 := by
  cases e <;> simp [chain, errors.Unwrap, GoError.Unwrap, baseError.Unwrap]

theorem chain_iterate_length (k : Nat) (e : GoError) :
    (chain (Nat.iterate errors.Unwrap k e)).length = (chain e).length - k := by
  induction k generalizing e with
  | zero => simp
  | succ k ih =>
    rw [Function.iterate_succ_apply, ih, chain_Unwrap_length]
    omega

theorem eq_nil_of_chain_length {e : GoError} (h : (chain e).length = 0) : e = GoError.nil := by
  cases e <;> simp_all [chain]

theorem chain_length_pos {e : GoError} (h : e ≠ GoError.nil) : 0 < (chain e).length := by
  cases e with
  | nil => exact absurd rfl h
  | foreign msg cause => simp [chain]
  | foreignPresentable msg presentable cause => simp [chain]
  | typed Err msg v => simp [chain]
  | presentableWrapper err => simp [chain]

/-- C11: flattening always terminates. For every implementation of the
`error` interface (so also one whose `Unwrap` chain is cyclic or infinite),
every error and every `maxDepth`, the extractor is a total function; its
instrumented run returns the same result, calls `errors.Unwrap` at most
`max(maxDepth - 1, 0)` times and writes at most `max(maxDepth, 1)` messages,
and a returned string is exactly the written messages joined with `": "`.
For the errors of the package (`GoError`, built by the constructors from
causes that already exist), unwrapping reaches nil after as many steps as the
chain is long and never comes back to the error it started from. -/
theorem unwrapInfo_bounded {E : Type} (ops : ErrorOps E) (maxDepth : Int) (err : E) :
    (unwrapInfoRun ops maxDepth err).result = unwrapInfo ops maxDepth err
      ∧ ((unwrapInfoRun ops maxDepth err).unwraps : Int) ≤ max (maxDepth - 1) 0
      ∧ ((unwrapInfoRun ops maxDepth err).written.length : Int) ≤ max maxDepth 1
      ∧ (∀ s, unwrapInfo ops maxDepth err = some s →
          s = ": ".intercalate (unwrapInfoRun ops maxDepth err).written)
      ∧ (∀ e : GoError,
          (unwrapInfoRun GoError.ops maxDepth e).result = UnwrapInfoExtractor maxDepth e
            ∧ Nat.iterate errors.Unwrap (chain e).length e = GoError.nil
            ∧ ∀ k, 0 < k → e ≠ GoError.nil → Nat.iterate errors.Unwrap k e ≠ e) := by
  have hres : ∀ {F : Type} (o : ErrorOps F) (x : F),
      (unwrapInfoRun o maxDepth x).result = unwrapInfo o maxDepth x
        ∧ (unwrapInfoRun o maxDepth x).unwraps ≤ (maxDepth - 1).toNat
        ∧ (unwrapInfoRun o maxDepth x).written.length ≤ 1 + (maxDepth - 1).toNat
        ∧ (∀ s, (unwrapInfoRun o maxDepth x).result = some s →
            s = ": ".intercalate (unwrapInfoRun o maxDepth x).written) := by
    intro F o x
    rw [unwrapInfoRun, unwrapInfo]
    cases hn : o.isNil x with
    | true =>
      simp only [if_true, Nat.zero_le, List.length_nil, Option.some.injEq, true_and]
      intro s hs
      rw [← hs]
      rfl
    | false =>
      cases hm : o.Error x with
      | none => simp
      | some m =>
        simp only [Bool.false_eq_true, if_false]
        obtain ⟨h1, h2, h3, h4⟩ := unwrapLoopRun_spec o (maxDepth - 1).toNat maxDepth 1 x
          ("" ++ m) 0 [m] rfl
        refine ⟨h1, by omega, by simpa using h3, h4 (by simp) ?_⟩
        simp [String.intercalate, String.intercalate.go]
  obtain ⟨h1, h2, h3, h4⟩ := hres ops err
  refine ⟨h1, by omega, by omega, ?_, ?_⟩
  · intro s hs
    exact h4 s (h1.trans hs)
  · intro e
    refine ⟨(hres GoError.ops e).1, ?_, ?_⟩
    · apply eq_nil_of_chain_length
      rw [chain_iterate_length]
      omega
    · intro k hk hne heq
      have hlen := chain_iterate_length k e
      rw [heq] at hlen
      have hpos := chain_length_pos hne
      omega

/-- Witness of C11 on the cyclic error `selfWrapped` with depth 3: the
extractor returns after two unwrap steps with three messages; and on an
`InternalError` without a cause, which unwraps to nil and not to itself. -/
theorem unwrapInfo_bounded_witness :
    unwrapInfo selfWrapped 3 () = some "loop: loop: loop"
      ∧ ((unwrapInfoRun selfWrapped 3 ()).unwraps : Int) ≤ 2
      ∧ "loop: loop: loop" = ": ".intercalate (unwrapInfoRun selfWrapped 3 ()).written
      ∧ errors.Unwrap (NewInternalError "boom" GoError.nil) ≠ NewInternalError "boom" GoError.nil :=
  have hv : unwrapInfo selfWrapped 3 () = some "loop: loop: loop" := by
    simp [unwrapInfo, unwrapLoop, selfWrapped]
  ⟨hv, (unwrapInfo_bounded selfWrapped 3 ()).2.1,
    (unwrapInfo_bounded selfWrapped 3 ()).2.2.2.1 "loop: loop: loop" hv,
    ((unwrapInfo_bounded selfWrapped 3 ()).2.2.2.2 (NewInternalError "boom" GoError.nil)).2.2 1
      (by decide) (by decide)⟩

end terrors

namespace terrors

open fmt (Sprintf Arg expand)

theorem Sprintf_combine_head (msg : String) :
    Sprintf "%s: " [Arg.str msg] = msg ++ ": " := by
  apply String.ext
  simp [Sprintf, expand]

/-- From a non-zero index on, the loop of `CombineErrsIntoError` appends to
the builder what `String.intercalate` appends to its accumulator. -/
theorem combineLoop_succ (ex : ErrInfoExtractor) (errs : List GoError) (i : Nat)
    (builder : String) (hi : i ≠ 0) :
    combineLoop ex errs i builder
      = (perErrorStrings ex errs).map (String.intercalate.go builder ", ") := by
  induction errs generalizing i builder with
  | nil => simp [combineLoop, perErrorStrings, String.intercalate.go]
  | cons e rest ih =>
    cases he : e.Error with
    | none => simp [combineLoop, perErrorStrings, perErrorString, he]
    | some m =>
      cases ex with
      | none =>
        simp only [combineLoop, perErrorStrings, perErrorString, he, ne_eq, hi,
          not_false_eq_true, if_true, ih (i + 1) _ (Nat.succ_ne_zero i)]
        cases perErrorStrings none rest <;> simp [String.intercalate.go]
      | some f =>
        cases hf : f e with
        | none => simp [combineLoop, perErrorStrings, perErrorString, he, hf]
        | some s =>
          simp only [combineLoop, perErrorStrings, perErrorString, he, hf, ne_eq, hi,
            not_false_eq_true, if_true, ih (i + 1) _ (Nat.succ_ne_zero i)]
          cases perErrorStrings (some f) rest <;> simp [String.intercalate.go]

theorem combineLoop_zero (ex : ErrInfoExtractor) (errs : List GoError) (head : String)
    (hne : errs ≠ []) :
    combineLoop ex errs 0 head
      = (perErrorStrings ex errs).map (fun ss => head ++ ", ".intercalate ss) := by
  have hgo : ∀ (l : List String) (a b : String),
      String.intercalate.go (a ++ b) ", " l = a ++ String.intercalate.go b ", " l := by
    intro l
    induction l with
    | nil => intro a b; simp [String.intercalate.go]
    | cons x l ih => intro a b; simp [String.intercalate.go, String.append_assoc, ih]
  cases errs with
  | nil => exact absurd rfl hne
  | cons e rest =>
    cases he : e.Error with
    | none => simp [combineLoop, perErrorStrings, perErrorString, he]
    | some m =>
      cases ex with
      | none =>
        simp only [combineLoop, perErrorStrings, perErrorString, he, ne_eq, not_true_eq_false,
          if_false, combineLoop_succ none rest (0 + 1) _ (Nat.succ_ne_zero 0)]
        cases perErrorStrings none rest <;> simp [String.intercalate, hgo]
      | some f =>
        cases hf : f e with
        | none => simp [combineLoop, perErrorStrings, perErrorString, he, hf]
        | some s =>
          simp only [combineLoop, perErrorStrings, perErrorString, he, hf, ne_eq,
            not_true_eq_false, if_false,
            combineLoop_succ (some f) rest (0 + 1) _ (Nat.succ_ne_zero 0)]
          cases perErrorStrings (some f) rest <;> simp [String.intercalate, hgo]

end terrors

namespace terrors

open fmt (Sprintf Arg expand)

theorem perErrorStrings_none (errs : List GoError) :
    perErrorStrings none errs = messages errs := by
  induction errs with
  | nil => rfl
  | cons e rest ih =>
    simp only [perErrorStrings, perErrorString, messages, ih]
    cases e.Error <;> rfl

theorem perErrorStrings_some (f : GoError → Option String) (errs : List GoError)
    (ms ss : List String) (hm : messages errs = some ms) (hf : errs.map f = ss.map some) :
    perErrorStrings (some f) errs = some ss := by
  induction errs generalizing ms ss with
  | nil =>
    cases ss with
    | nil => rfl
    | cons s ss => simp at hf
  | cons e rest ih =>
    cases ss with
    | nil => simp at hf
    | cons s ss =>
      simp only [List.map_cons, List.cons.injEq] at hf
      cases he : e.Error with
      | none => simp [messages, he] at hm
      | some m =>
        cases hr : messages rest with
        | none => simp [messages, he, hr] at hm
        | some mr =>
          simp [perErrorStrings, perErrorString, he, hf.1, ih mr ss hr hf.2]

/-- C16, at the failing input: on the one-element list of the non-nil error
`Presentable(nil)`, with an extractor that returns `"x"` for every error,
`CombineErrsIntoError` does not return an error with message `"failed: x"`:
it panics, because it calls `err.Error()` before it calls the extractor. -/
theorem CombineErrsIntoError_counterexample :
    Presentable GoError.nil ≠ GoError.nil
      ∧ CombineErrsIntoError "failed" [Presentable GoError.nil] (some fun _ => some "x") = none := by
  constructor
  · decide
  · rfl

/-- What `CombineErrsIntoError(msg, errs, extractor)` computes: it returns nil
if and only if `errs` is empty. For a non-empty list it calls `err.Error()` on
every error, also when an extractor is given, and panics when one of these
calls (or a call of the extractor) panics; otherwise it returns an error with
message `msg ++ ": "` followed by the per-error strings joined with `", "` in
input order, the per-error string being `err.Error()` without an extractor
and `extractor(err)` with one. -/
theorem CombineErrsIntoError_spec (msg : String) (errs : List GoError)
    (ex : ErrInfoExtractor) :
    (CombineErrsIntoError msg errs ex = some GoError.nil ↔ errs = [])
      ∧ (errs ≠ [] → CombineErrsIntoError msg errs ex
          = (perErrorStrings ex errs).map
              (fun ss => errors.New (msg ++ ": " ++ ", ".intercalate ss)))
      ∧ (errs ≠ [] → ∀ ms, messages errs = some ms →
          CombineErrsIntoError msg errs none
            = some (errors.New (msg ++ ": " ++ ", ".intercalate ms)))
      ∧ (errs ≠ [] → ∀ (f : GoError → Option String) (ms ss : List String),
          messages errs = some ms → errs.map f = ss.map some →
          CombineErrsIntoError msg errs (some f)
            = some (errors.New (msg ++ ": " ++ ", ".intercalate ss)))
      ∧ (∀ text : String, (errors.New text).Error = some text) := by
  have hmain : ∀ x : ErrInfoExtractor, errs ≠ [] → CombineErrsIntoError msg errs x
      = (perErrorStrings x errs).map
          (fun ss => errors.New (msg ++ ": " ++ ", ".intercalate ss)) := by
    intro x hne
    have hlen : ¬ errs.length = 0 := by
      intro h
      exact hne (List.length_eq_zero.mp h)
    simp only [CombineErrsIntoError, hlen, if_false, String.empty_append,
      Sprintf_combine_head, combineLoop_zero x errs _ hne]
    cases perErrorStrings x errs <;> rfl
  refine ⟨?_, hmain ex, ?_, ?_, fun _ => rfl⟩
  · constructor
    · intro h
      by_contra hne
      rw [hmain ex hne] at h
      cases hp : perErrorStrings ex errs with
      | none => simp [hp] at h
      | some ss => simp [hp, errors.New] at h
    · intro h
      subst h
      rfl
  · intro hne ms hm
    rw [hmain none hne, perErrorStrings_none, hm]
    rfl
  · intro hne f ms ss hm hf
    rw [hmain (some f) hne, perErrorStrings_some f errs ms ss hm hf]
    rfl

/-- Two errors combined without an extractor and with the extractor
`UnwrapInfoExtractor(2)`. -/
theorem CombineErrsIntoError_spec_witness :
    CombineErrsIntoError "failed"
        [NewNotFound "order" "id" "order-99" (errors.New "EOF"), errors.New "timeout"] none
        = some (errors.New "failed: order was not found with id: order-99, timeout")
      ∧ CombineErrsIntoError "failed"
          [NewNotFound "order" "id" "order-99" (errors.New "EOF"), errors.New "timeout"]
          (some (UnwrapInfoExtractor 2))
        = some (errors.New "failed: order was not found with id: order-99: EOF, timeout") :=
  have h := CombineErrsIntoError_spec "failed"
    [NewNotFound "order" "id" "order-99" (errors.New "EOF"), errors.New "timeout"] none
  ⟨(h.2.2.1 (by decide) ["order was not found with id: order-99", "timeout"]
      (by decide)).trans (by decide),
    (h.2.2.2.1 (by decide) (UnwrapInfoExtractor 2)
      ["order was not found with id: order-99", "timeout"]
      ["order was not found with id: order-99: EOF", "timeout"] (by decide)
      (by simp [UnwrapInfoExtractor, unwrapInfo, unwrapLoop, GoError.ops, GoError.isNil,
        GoError.Error, baseError.Error, errors.Unwrap, GoError.Unwrap, baseError.Unwrap,
        NewNotFound, newBaseError, errors.New]; decide)).trans (by decide)⟩

end terrors

namespace terrors

open fmt (Sprintf Arg expand)

/-- C17: the message of a typed error is fixed at construction. For every
constructor call, `Error()` returns a string; it is the same string whatever
cause the constructor is given with the same field arguments, and it is the
same after any assignment to the exported fields of the constructed value
(`Err` and the fields of the struct). `Error()` reads nothing but the stored
`msg`, so every call on the same value returns the same string. -/
theorem Error_fixed_at_construction (c : Call) :
    (∃ m : String, c.eval.Error = some m)
      ∧ (∀ err : GoError, (c.withErr err).eval.Error = c.eval.Error)
      ∧ (∀ (Err : GoError) (v : Variant), (c.eval.assignFields Err v).Error = c.eval.Error)
      ∧ (∀ (Err Err2 : GoError) (msg : String) (v v2 : Variant),
          (GoError.typed Err msg v).Error = (GoError.typed Err2 msg v2).Error) := by
  refine ⟨?_, ?_, ?_, fun _ _ _ _ _ => rfl⟩
  · cases c <;> exact ⟨_, rfl⟩
  · intro err
    cases c <;> rfl
  · intro Err v
    cases c <;> rfl

/-- C18: the remaining variants render their message from a fixed template
and store their arguments unchanged in the exported fields: each constructor
returns the struct with the given cause, the template filled with the
arguments as `msg`, and the arguments as fields; `Error()` returns `msg`. -/
theorem constructor_templates (msg param feature name key : String) (err : GoError) :
    NewInternalError msg err
        = GoError.typed err ("an internal error occurred: " ++ msg) (Variant.InternalError msg)
      ∧ NewUnknownError msg err
        = GoError.typed err ("an unexpected error occurred: " ++ msg) (Variant.UnknownError msg)
      ∧ NewNotImplemented feature
        = GoError.typed GoError.nil ("feature " ++ feature ++ " is not implemented")
            (Variant.NotImplemented feature)
      ∧ NewInvalidParameter param msg err
        = GoError.typed err ("invalid parameter " ++ param ++ ": " ++ msg)
            (Variant.InvalidParameter param msg)
      ∧ NewNilParameter name
        = GoError.typed GoError.nil ("invalid parameter " ++ name ++ ": must not be nil")
            (Variant.InvalidParameter name "must not be nil")
      ∧ NewStateConflict msg err
        = GoError.typed err ("operation not possible due to current state: " ++ msg)
            (Variant.StateConflict msg)
      ∧ NewUnauthenticated msg err
        = GoError.typed err ("unauthenticated: " ++ msg) (Variant.Unauthenticated msg)
      ∧ NewForbidden msg err
        = GoError.typed err ("forbidden: " ++ msg) (Variant.Forbidden msg)
      ∧ NewInvalidCtxValue key
        = GoError.typed GoError.nil
            ("context value " ++ key ++ " was missing or not the expected type")
            (Variant.InvalidCtxValue key)
      ∧ (∀ (Err : GoError) (m : String) (v : Variant),
          (GoError.typed Err m v).Error = some m) := by
  have hs : ∀ (a b : String), a = b → ∀ (e : GoError) (v : Variant),
      GoError.typed e a v = GoError.typed e b v := by
    intro a b h e v
    rw [h]
  refine ⟨?_, ?_, ?_, ?_, ?_, ?_, ?_, ?_, ?_, fun _ _ _ => rfl⟩
  · apply hs; apply String.ext; simp [Sprintf, expand]
  · apply hs; apply String.ext; simp [Sprintf, expand]
  · apply hs; apply String.ext; simp [Sprintf, expand]
  · apply hs; apply String.ext; simp [Sprintf, expand]
  · apply hs; apply String.ext; simp [Sprintf, expand]
  · apply hs; apply String.ext; simp [Sprintf, expand]
  · apply hs; apply String.ext; simp [Sprintf, expand]
  · apply hs; apply String.ext; simp [Sprintf, expand]
  · apply hs; apply String.ext; simp [Sprintf, expand]

theorem FormatInt_ten (i : Int) : strconv.FormatInt i 10 = toString i := by
  cases i with
  | ofNat n =>
    have h : ¬ (Int.ofNat n < 0) := by simp
    simp only [strconv.FormatInt, h, if_false]
    rfl
  | negSucc n =>
    have h : Int.negSucc n < 0 := Int.negSucc_lt_zero n
    simp only [strconv.FormatInt, h, if_true]
    rfl

/-- C20: for every `firstBytePos`, `completeLength`, optional `lastBytePos`
and cause, `NewUnsatisfiableRange(...).Error()` returns
`"unsatisfiable range: " ++ first ++ "-" ++ last ++ " (complete length: " ++ length ++ ")"`
with the integers in base 10, `last` being the rendering of `*lastBytePos`
when the pointer is non-nil and empty when it is nil; first 5, no last and
length 10 give `"unsatisfiable range: 5- (complete length: 10)"`. -/
theorem NewUnsatisfiableRange_Error (firstBytePos completeLength : Int)
    (lastBytePos : Option Int) (err : GoError) :
    (NewUnsatisfiableRange firstBytePos lastBytePos completeLength err).Error
        = some ("unsatisfiable range: " ++ toString firstBytePos ++ "-"
            ++ (match lastBytePos with
                | some last => toString last
                | none => "")
            ++ " (complete length: " ++ toString completeLength ++ ")")
      ∧ (NewUnsatisfiableRange 5 none 10 err).Error
        = some "unsatisfiable range: 5- (complete length: 10)"
      ∧ (NewUnsatisfiableRange 0 (some 499) 200 err).Error
        = some "unsatisfiable range: 0-499 (complete length: 200)"
      ∧ (∀ i : Int, strconv.FormatInt i 10 = toString i)
      ∧ toString (-42 : Int) = "-42" := by
  refine ⟨?_, rfl, rfl, FormatInt_ten, rfl⟩
  simp only [NewUnsatisfiableRange, newBaseError, GoError.Error, baseError.Error,
    Option.some.injEq]
  cases lastBytePos with
  | none =>
    apply String.ext
    simp [Sprintf, expand]
  | some last =>
    simp only [FormatInt_ten]
    apply String.ext
    simp [Sprintf, expand]

end terrors

namespace terrors

/-- For a depth of at least 1 the extractor returns the messages of the first
`maxDepth` errors of the chain, joined with `": "`. -/
theorem UnwrapInfoExtractor_eq_take (maxDepth : Int) (e : GoError) (hd : 1 ≤ maxDepth) :
    UnwrapInfoExtractor maxDepth e
      = (messages ((chain e).take maxDepth.toNat)).map (String.intercalate ": ") := by
  obtain ⟨k, hk⟩ : ∃ k : Nat, maxDepth.toNat = k + 1 := ⟨maxDepth.toNat - 1, by omega⟩
  rw [UnwrapInfoExtractor, unwrapInfo]
  simp only [GoError.ops]
  cases hn : e.isNil with
  | true => simp [chain_of_isNil hn, messages, String.intercalate]
  | false =>
    rw [chain_of_not_isNil hn, hk, List.take_succ_cons]
    cases hm : e.Error with
    | none => simp [messages, hm]
    | some m =>
      have hl := unwrapLoop_chain k maxDepth 1 e ("" ++ m) (by omega)
      simp only [GoError.ops] at hl
      simp only [Bool.false_eq_true, if_false, hl, messages, hm]
      cases messages (List.take k (chain (errors.Unwrap e))) with
      | none => rfl
      | some ms => simp only [Option.map_some', String.intercalate, String.empty_append]

end terrors

namespace logging

open terrors

/-- C12: for every `ZapJSONLogger` pointer `z` and every error `err`,
`z.WithError(err)` is `z.WithField("error", s)` for the string `s` that
`UnwrapInfoExtractor(1000)` returns on `err` (and panics when that panics);
for a nil `err` the value attached is the empty string; and for a chain of at
most 1000 errors with messages `ms`, `s` is all of them joined with `": "`. -/
theorem WithError_eq_WithField (h : Heap) (z : Option Nat) (err : GoError) :
    ZapJSONLogger.WithError h z err
        = (match UnwrapInfoExtractor 1000 err with
            | none => none
            | some s => ZapJSONLogger.WithField h z "error" (GoValue.str s))
      ∧ ZapJSONLogger.WithError h z GoError.nil
        = ZapJSONLogger.WithField h z "error" (GoValue.str "")
      ∧ (∀ ms : List String, (chain err).length ≤ 1000 → messages (chain err) = some ms →
          UnwrapInfoExtractor 1000 err = some (": ".intercalate ms)
            ∧ ZapJSONLogger.WithError h z err
              = ZapJSONLogger.WithField h z "error" (GoValue.str (": ".intercalate ms))) := by
  have hnil : UnwrapInfoExtractor 1000 GoError.nil = some "" := rfl
  refine ⟨rfl, ?_, ?_⟩
  · simp only [ZapJSONLogger.WithError, hnil, ErrKey]
  · intro ms hlen hms
    have hs : UnwrapInfoExtractor 1000 err = some (": ".intercalate ms) := by
      rw [UnwrapInfoExtractor_eq_take 1000 err (by decide)]
      have ht : (chain err).take (1000 : Int).toNat = chain err :=
        List.take_of_length_le (by simpa using hlen)
      rw [ht, hms]
      rfl
    exact ⟨hs, by simp only [ZapJSONLogger.WithError, hs, ErrKey]⟩

/-- Witness of C12: the chain `InternalError -> NotFound -> errors.New("EOF")`
attached to the logger at address 0. -/
theorem WithError_eq_WithField_witness :
    ZapJSONLogger.WithError
        [{ logger := { level := zapcore.Level.InfoLevel, fields := [], callerSkip := 1,
                       hooks := [] } }]
        (some 0)
        (NewInternalError "lookup failed"
          (NewNotFound "order" "id" "order-99" (errors.New "EOF")))
      = ZapJSONLogger.WithField
          [{ logger := { level := zapcore.Level.InfoLevel, fields := [], callerSkip := 1,
                         hooks := [] } }]
          (some 0) "error"
          (GoValue.str (": ".intercalate
            ["an internal error occurred: lookup failed",
             "order was not found with id: order-99", "EOF"])) :=
  ((WithError_eq_WithField _ (some 0)
      (NewInternalError "lookup failed"
        (NewNotFound "order" "id" "order-99" (errors.New "EOF")))).2.2
    ["an internal error occurred: lookup failed", "order was not found with id: order-99",
      "EOF"]
    (by decide) (by decide)).2

end logging

namespace logging

theorem find_attach (fields : List zap.Field) (f : zap.Field) (key : String) :
    ((zap.attach fields f).find? (fun g => g.Key = key)).map (fun g => g.Value)
      = if f.Key = key then some f.Value
        else (fields.find? (fun g => g.Key = key)).map (fun g => g.Value) := by
  unfold zap.attach
  rw [List.find?_append, List.find?_filter]
  by_cases hk : f.Key = key
  · have hnone : List.find?
        (fun a => decide (decide (a.Key ≠ f.Key) = true ∧ decide (a.Key = key) = true)) fields
        = none := by
      rw [List.find?_eq_none]
      intro x _ hx
      simp only [decide_eq_true_eq] at hx
      exact hx.1 (hx.2.trans hk.symm)
    rw [hnone]
    simp [List.find?_cons, hk]
  · have hfun : (fun a : zap.Field =>
          decide (decide (a.Key ≠ f.Key) = true ∧ decide (a.Key = key) = true))
        = (fun a : zap.Field => decide (a.Key = key)) := by
      funext a
      by_cases ha : a.Key = key
      · have haf : a.Key ≠ f.Key := fun h => hk (h.symm.trans ha)
        simp [ha, haf]
        exact fun h => hk h.symm
      · simp [ha]
    rw [hfun]
    simp [List.find?_cons, hk]

theorem find_foldl_attach (new : Fields) (fields : List zap.Field) (key : String)
    (hnew : (new.map Prod.fst).Nodup) :
    (((new.map (fun kv => zap.Any kv.1 kv.2)).foldl zap.attach fields).find?
        (fun g => g.Key = key)).map (fun g => g.Value)
      = match Fields.get new key with
        | some v => some v
        | none => (fields.find? (fun g => g.Key = key)).map (fun g => g.Value) := by
  induction new generalizing fields with
  | nil => simp [Fields.get]
  | cons kv rest ih =>
    simp only [List.map_cons, List.nodup_cons] at hnew
    simp only [List.map_cons, List.foldl_cons]
    rw [ih _ hnew.2, find_attach]
    by_cases hk : kv.1 = key
    · have hrest : Fields.get rest key = none := by
        simp only [Fields.get, Option.map_eq_none', List.find?_eq_none, decide_eq_true_eq]
        intro x hx hxk
        apply hnew.1
        rw [hk, ← hxk]
        exact List.mem_map_of_mem Prod.fst hx
      have hhead : Fields.get (kv :: rest) key = some kv.2 := by
        simp [Fields.get, List.find?_cons, hk]
      rw [hrest, hhead]
      simp [zap.Any, hk]
    · have hhead : Fields.get (kv :: rest) key = Fields.get rest key := by
        simp [Fields.get, List.find?_cons, hk]
      rw [hhead]
      simp [zap.Any, hk]

end logging

namespace logging

open terrors

/-- C13, refuted as stated: a `NoopLogger` given a field set returns itself
and carries no field, so the derived logger does not carry the key of the
field set. -/
theorem NoopLogger_WithFields_counterexample :
    Logger.WithFields [] (Logger.noop false) [("request-id", GoValue.str "42")]
        = some ([], Logger.noop false)
      ∧ Fields.get [("request-id", GoValue.str "42")] "request-id" = some (GoValue.str "42")
      ∧ Logger.fieldValue [] (Logger.noop false) "request-id" = none := by
  decide

/-- C13, amended: for a `ZapJSONLogger` `l` (at address `a` of the heap) and
maps `f1`, `f2`, the calls `l.WithFields(f1).WithFields(f2)` return a logger
that carries under every key the value of `f2` if `f2` has the key, else the
value of `f1` if `f1` has it, else what `l` carries; every logger that
existed before, `l` included, is unchanged in the heap, carries the same
fields and emits the same records; `WithField` likewise adds its pair and
changes no existing logger. A `NoopLogger` returns itself from `WithField`,
`WithFields` and `WithError`, carries no field and changes nothing. -/
theorem WithFields_union (h : Heap) (a : Nat) (obj : ZapJSONLogger) (f1 f2 : Fields)
    (hobj : h[a]? = some obj) (hf1 : (f1.map Prod.fst).Nodup)
    (hf2 : (f2.map Prod.fst).Nodup) :
    (∃ h1 l1 h2 l2,
        Logger.WithFields h (Logger.zapJSON (some a)) f1 = some (h1, l1)
          ∧ Logger.WithFields h1 l1 f2 = some (h2, l2)
          ∧ (∀ key, Logger.fieldValue h2 l2 key
              = match Fields.get f2 key with
                | some v => some v
                | none =>
                  match Fields.get f1 key with
                  | some v => some v
                  | none => Logger.fieldValue h (Logger.zapJSON (some a)) key)
          ∧ (∀ b, b < h.length → h1[b]? = h[b]? ∧ h2[b]? = h[b]?)
          ∧ Logger.attached h2 (Logger.zapJSON (some a))
              = Logger.attached h (Logger.zapJSON (some a))
          ∧ (∀ msg, Logger.Info h2 (Logger.zapJSON (some a)) msg
              = Logger.Info h (Logger.zapJSON (some a)) msg))
      ∧ (∀ (key : String) (value : GoValue), ∃ h1 l1,
          Logger.WithField h (Logger.zapJSON (some a)) key value = some (h1, l1)
            ∧ Logger.fieldValue h1 l1 key = some value
            ∧ (∀ b, b < h.length → h1[b]? = h[b]?))
      ∧ (∀ (p : Bool) (key : String) (value : GoValue) (err : GoError),
          Logger.WithFields h (Logger.noop p) f1 = some (h, Logger.noop p)
            ∧ Logger.WithField h (Logger.noop p) key value = some (h, Logger.noop p)
            ∧ Logger.WithError h (Logger.noop p) err = some (h, Logger.noop p)
            ∧ Logger.attached h (Logger.noop p) = []) := by
  have ha : a < h.length := by
    rcases Nat.lt_or_ge a h.length with hlt | hge
    · exact hlt
    · rw [List.getElem?_eq_none hge] at hobj
      exact absurd hobj (by simp)
  have hkeep : ∀ (x : ZapJSONLogger) (b : Nat), b < h.length → (h ++ [x])[b]? = h[b]? :=
    fun x b hb => List.getElem?_append_left hb
  have hkeep2 : ∀ (x y : ZapJSONLogger) (b : Nat), b < h.length →
      (h ++ [x] ++ [y])[b]? = h[b]? := by
    intro x y b hb
    rw [List.getElem?_append_left (by simp; omega)]
    exact hkeep x b hb
  have hlast : ∀ (g : Heap) (x : ZapJSONLogger), (g ++ [x])[g.length]? = some x := by
    intro g x
    simp
  have hlast2 : ∀ (x y : ZapJSONLogger), (h ++ [x] ++ [y])[h.length + 1]? = some y := by
    intro x y
    have := hlast (h ++ [x]) y
    simpa using this
  obtain ⟨w1, hw1⟩ : ∃ w1 : zap.Logger,
      w1 = obj.logger.With (f1.map fun kv => zap.Any kv.1 kv.2) := ⟨_, rfl⟩
  obtain ⟨w2, hw2⟩ : ∃ w2 : zap.Logger,
      w2 = w1.With (f2.map fun kv => zap.Any kv.1 kv.2) := ⟨_, rfl⟩
  refine ⟨?_, ?_, ?_⟩
  · refine ⟨h ++ [ZapJSONLogger.mk w1], Logger.zapJSON (some h.length),
      h ++ [ZapJSONLogger.mk w1] ++ [ZapJSONLogger.mk w2],
      Logger.zapJSON (some (h.length + 1)), ?_, ?_, ?_, ?_, ?_, ?_⟩
    · simp [Logger.WithFields, ZapJSONLogger.WithFields, Heap.deref, Heap.alloc, hobj, hw1]
    · simp [Logger.WithFields, ZapJSONLogger.WithFields, Heap.deref, Heap.alloc, hw2]
    · intro key
      simp only [Logger.fieldValue, Logger.attached, Heap.deref, hlast2, hobj]
      rw [hw2, hw1]
      simp only [zap.Logger.With]
      rw [find_foldl_attach f2 _ key hf2, find_foldl_attach f1 _ key hf1]
    · intro b hb
      exact ⟨hkeep _ b hb, hkeep2 _ _ b hb⟩
    · simp only [Logger.attached, Heap.deref, hkeep2 _ _ a ha]
    · intro msg
      simp only [Logger.Info, ZapJSONLogger.Info, Heap.deref, hkeep2 _ _ a ha]
  · intro key value
    refine ⟨h ++ [ZapJSONLogger.mk (obj.logger.With [zap.Any key value])],
      Logger.zapJSON (some h.length), ?_, ?_, fun b hb => hkeep _ b hb⟩
    · simp [Logger.WithField, ZapJSONLogger.WithField, Heap.deref, Heap.alloc, hobj]
    · simp only [Logger.fieldValue, Logger.attached, Heap.deref, hlast, zap.Logger.With,
        List.foldl_cons, List.foldl_nil]
      rw [find_attach]
      simp [zap.Any]
  · intro p key value err
    exact ⟨rfl, rfl, rfl, rfl⟩

/-- Witness of the amended C13: a logger that carries `env = "prod"` is
derived with `{env: "test", user-id: "u1"}` and then with `{user-id: "u2"}`. -/
theorem WithFields_union_witness :
    ∃ h2 l2,
      (Logger.WithFields
          [{ logger := { level := zapcore.Level.InfoLevel,
                         fields := [zap.Any "env" (GoValue.str "prod")],
                         callerSkip := 1, hooks := [] } }]
          (Logger.zapJSON (some 0))
          [("env", GoValue.str "test"), ("user-id", GoValue.str "u1")]).bind
        (fun r => Logger.WithFields r.1 r.2 [("user-id", GoValue.str "u2")]) = some (h2, l2)
      ∧ Logger.fieldValue h2 l2 "env" = some (GoValue.str "test")
      ∧ Logger.fieldValue h2 l2 "user-id" = some (GoValue.str "u2")
      ∧ Logger.fieldValue h2 (Logger.zapJSON (some 0)) "env" = some (GoValue.str "prod")
      ∧ Logger.fieldValue h2 (Logger.zapJSON (some 0)) "user-id" = none := by
  obtain ⟨⟨h1, l1, h2, l2, e1, e2, hv, hframe, hatt, _⟩, _, _⟩ :=
    WithFields_union
      [{ logger := { level := zapcore.Level.InfoLevel,
                     fields := [zap.Any "env" (GoValue.str "prod")],
                     callerSkip := 1, hooks := [] } }]
      0 _ [("env", GoValue.str "test"), ("user-id", GoValue.str "u1")]
      [("user-id", GoValue.str "u2")] rfl (by decide) (by decide)
  refine ⟨h2, l2, ?_, ?_, ?_, ?_, ?_⟩
  · rw [e1]
    exact e2
  · rw [hv "env"]
    decide
  · rw [hv "user-id"]
    decide
  · simp only [Logger.fieldValue, hatt]
    decide
  · simp only [Logger.fieldValue, hatt]
    decide

end logging

namespace logging

open terrors

theorem NewInvalidCtxValue_logger :
    NewInvalidCtxValue loggerCtxKeyString
      = GoError.typed GoError.nil "context value logger was missing or not the expected type"
          (Variant.InvalidCtxValue "logger") := by
  decide

/-- Round trip through the context for the loggers on which `IsNil` returns.
For every context `ctx` and every logger `l` of a kind that can be nil and
whose value is not nil (so every non-nil `*ZapJSONLogger` and `*NoopLogger`),
`LoggerFromContext(ContextWithLogger(ctx, l))` returns `(l, nil)`. For every
context in which the value under the logger key is missing (nil), is not a
`Logger`, or is a `Logger` whose value is nil, `LoggerFromContext` returns
the nil logger and an `InvalidCtxValue` error with `Key` `"logger"` and
message `"context value logger was missing or not the expected type"`. -/
theorem LoggerFromContext_roundtrip (ctx : context.Context) (l : Logger) :
    (l.reflectIsNil = some false →
        LoggerFromContext (ContextWithLogger ctx l) = some (l, GoError.nil))
      ∧ ((ctx.Value loggerCtxKey = GoValue.nil
            ∨ assertLogger (ctx.Value loggerCtxKey) = none
            ∨ ∃ stored : Logger, assertLogger (ctx.Value loggerCtxKey) = some stored
                ∧ stored.reflectIsNil = some true) →
          LoggerFromContext ctx
              = some (Logger.nil,
                  GoError.typed GoError.nil
                    "context value logger was missing or not the expected type"
                    (Variant.InvalidCtxValue "logger")))
      ∧ (l = Logger.nil ∨ l.reflectIsNil = some true →
          LoggerFromContext (ContextWithLogger ctx l)
            = some (Logger.nil, NewInvalidCtxValue "logger"))
      ∧ (l ≠ Logger.nil → l.reflectIsNil = none →
          LoggerFromContext (ContextWithLogger ctx l) = none) := by
  have hval : (ContextWithLogger ctx l).Value loggerCtxKey = l.toValue := by
    simp [ContextWithLogger, context.WithValue, context.Context.Value]
  have hassert : ∀ x : Logger, x ≠ Logger.nil → assertLogger x.toValue = some x := by
    intro x hx
    cases x with
    | nil => exact absurd rfl hx
    | zapJSON z => rfl
    | noop p => rfl
    | foreign typeName isNil => rfl
  have hbad : (ctx.Value loggerCtxKey = GoValue.nil
        ∨ assertLogger (ctx.Value loggerCtxKey) = none
        ∨ ∃ stored : Logger, assertLogger (ctx.Value loggerCtxKey) = some stored
            ∧ stored.reflectIsNil = some true) →
      LoggerFromContext ctx = some (Logger.nil, NewInvalidCtxValue loggerCtxKeyString) := by
    intro hcases
    rcases hcases with h | h | ⟨stored, h, hs⟩
    · simp [LoggerFromContext, h, assertLogger]
    · simp [LoggerFromContext, h]
    · simp [LoggerFromContext, h, hs]
  refine ⟨?_, ?_, ?_, ?_⟩
  · intro hl
    have hne : l ≠ Logger.nil := by
      intro h
      rw [h] at hl
      simp [Logger.reflectIsNil] at hl
    simp [LoggerFromContext, hval, hassert l hne, hl]
  · intro hcases
    rw [hbad hcases, NewInvalidCtxValue_logger]
  · intro hl
    rcases hl with hl | hl
    · subst hl
      simp [LoggerFromContext, hval, Logger.toValue, assertLogger, loggerCtxKeyString]
    · have hne : l ≠ Logger.nil := by
        intro h
        rw [h] at hl
        simp [Logger.reflectIsNil] at hl
      simp [LoggerFromContext, hval, hassert l hne, hl, loggerCtxKeyString]
  · intro hne hl
    simp [LoggerFromContext, hval, hassert l hne, hl]

/-- C14, at the failing input: a logger `stdoutLogger{}` of a struct type
that implements `Logger` by value is stored with `ContextWithLogger`. The
stored value is a `Logger`, yet `LoggerFromContext` returns neither the
logger nor an `InvalidCtxValue` error: `reflect.ValueOf(logger).IsNil()`
panics on a struct. -/
theorem LoggerFromContext_struct_logger :
    Logger.foreign "stdoutLogger" none ≠ Logger.nil
      ∧ assertLogger
          ((ContextWithLogger context.Context.background
            (Logger.foreign "stdoutLogger" none)).Value loggerCtxKey)
        = some (Logger.foreign "stdoutLogger" none)
      ∧ LoggerFromContext
          (ContextWithLogger context.Context.background (Logger.foreign "stdoutLogger" none))
        = none
      ∧ LoggerFromContext
          (ContextWithLogger context.Context.background (Logger.foreign "stdoutLogger" none))
        ≠ some (Logger.foreign "stdoutLogger" none, GoError.nil) := by
  decide

theorem UnmarshalText_ok (logLevel : String)
    (hl : logLevel = "debug" ∨ logLevel = "info" ∨ logLevel = "warn" ∨ logLevel = "error") :
    ∃ level, zapcore.UnmarshalText logLevel = Except.ok level := by
  rcases hl with h | h | h | h <;> subst h <;> exact ⟨_, rfl⟩

theorem UnmarshalText_error (logLevel : String)
    (hl : ¬ (logLevel = "debug" ∨ logLevel = "info" ∨ logLevel = "warn" ∨ logLevel = "error")) :
    zapcore.UnmarshalText logLevel = Except.error (zapcore.parseError logLevel) := by
  simp only [not_or] at hl
  simp [zapcore.UnmarshalText, hl.1, hl.2.1, hl.2.2.1, hl.2.2.2]

/-- C15: `NewZapJSONLogger(level)` succeeds when `level` is one of `"debug"`,
`"info"`, `"warn"`, `"error"`: it returns a new logger at that minimum level
and a nil error. For every other string, `"bogus"` among them, it returns no
logger, allocates none, and returns the parse error; whenever the parse of
the level fails, the error of the parse is what is returned. A logger built
with `"info"` emits a record for an `Info` call and none for a `Debug` call. -/
theorem NewZapJSONLogger_levels (h : Heap) (logLevel : String) (opts : List ZapOption) :
    ((logLevel = "debug" ∨ logLevel = "info" ∨ logLevel = "warn" ∨ logLevel = "error") →
        ∃ (level : zapcore.Level) (logger : zap.Logger),
          zapcore.UnmarshalText logLevel = Except.ok level
            ∧ NewZapJSONLogger h logLevel opts
              = (h ++ [{ logger := logger }], some h.length, GoError.nil)
            ∧ logger.level = level ∧ logger.fields = [])
      ∧ (¬ (logLevel = "debug" ∨ logLevel = "info" ∨ logLevel = "warn" ∨ logLevel = "error") →
          NewZapJSONLogger h logLevel opts = (h, none, zapcore.parseError logLevel)
            ∧ zapcore.parseError logLevel ≠ GoError.nil)
      ∧ (∀ err : GoError, zapcore.UnmarshalText logLevel = Except.error err →
          NewZapJSONLogger h logLevel opts = (h, none, err))
      ∧ NewZapJSONLogger h "bogus" opts = (h, none, zapcore.parseError "bogus")
      ∧ (∀ msg : String,
          ZapJSONLogger.Info (NewZapJSONLogger h "info" opts).1
              (NewZapJSONLogger h "info" opts).2.1 msg
              = some (some { level := zapcore.Level.InfoLevel, message := msg, fields := [] })
            ∧ ZapJSONLogger.Debug (NewZapJSONLogger h "info" opts).1
                (NewZapJSONLogger h "info" opts).2.1 msg
              = some none) := by
  have hbuild : ∀ level : zapcore.Level, zapcore.UnmarshalText logLevel = Except.ok level →
      ∃ logger : zap.Logger,
        NewZapJSONLogger h logLevel opts
            = (h ++ [{ logger := logger }], some h.length, GoError.nil)
          ∧ logger.level = level ∧ logger.fields = [] := by
    intro level hp
    refine ⟨{ level := level, fields := [],
              callerSkip := (opts.foldl (fun options opt => opt.apply options)
                defaultZapOptions).callerSkipCount,
              hooks := (opts.foldl (fun options opt => opt.apply options)
                defaultZapOptions).hooks }, ?_, rfl, rfl⟩
    simp [NewZapJSONLogger, stdJSONLoggerConfig, hp, zapLoggerFromConfig, zap.Config.Build,
      Heap.alloc]
  have hinfo : zapcore.UnmarshalText "info" = Except.ok zapcore.Level.InfoLevel := rfl
  have hbuildInfo : ∃ logger : zap.Logger,
      NewZapJSONLogger h "info" opts
          = (h ++ [{ logger := logger }], some h.length, GoError.nil)
        ∧ logger.level = zapcore.Level.InfoLevel ∧ logger.fields = [] := by
    refine ⟨{ level := zapcore.Level.InfoLevel, fields := [],
              callerSkip := (opts.foldl (fun options opt => opt.apply options)
                defaultZapOptions).callerSkipCount,
              hooks := (opts.foldl (fun options opt => opt.apply options)
                defaultZapOptions).hooks }, ?_, rfl, rfl⟩
    simp [NewZapJSONLogger, stdJSONLoggerConfig, hinfo, zapLoggerFromConfig, zap.Config.Build,
      Heap.alloc]
  have herr : ∀ (s : String) (err : GoError), zapcore.UnmarshalText s = Except.error err →
      NewZapJSONLogger h s opts = (h, none, err) := by
    intro s err hp
    simp [NewZapJSONLogger, stdJSONLoggerConfig, hp]
  refine ⟨?_, ?_, herr logLevel, herr "bogus" _ (UnmarshalText_error "bogus" (by decide)), ?_⟩
  · intro hl
    obtain ⟨level, hp⟩ := UnmarshalText_ok logLevel hl
    obtain ⟨logger, h1, h2, h3⟩ := hbuild level hp
    exact ⟨level, logger, hp, h1, h2, h3⟩
  · intro hl
    refine ⟨herr logLevel _ (UnmarshalText_error logLevel hl), ?_⟩
    simp [zapcore.parseError, errors.New]
  · intro msg
    obtain ⟨logger, h1, h2, h3⟩ := hbuildInfo
    rw [h1]
    simp [ZapJSONLogger.Info, ZapJSONLogger.Debug, Heap.deref, zap.Logger.log, h2, h3,
      zapcore.Level.rank]

/-- Witness of C15: `"warn"` builds the first logger of an empty heap at the
warn level; `"WARN"` is no level of the configuration and yields the parse error. -/
theorem NewZapJSONLogger_levels_witness :
    (∃ (level : zapcore.Level) (logger : zap.Logger),
        zapcore.UnmarshalText "warn" = Except.ok level
          ∧ NewZapJSONLogger [] "warn" [] = ([] ++ [{ logger := logger }], some 0, GoError.nil)
          ∧ logger.level = level ∧ logger.fields = [])
      ∧ NewZapJSONLogger [] "WARN" [] = ([], none, zapcore.parseError "WARN") :=
  ⟨(NewZapJSONLogger_levels [] "warn" []).1 (by decide),
    ((NewZapJSONLogger_levels [] "WARN" []).2.1 (by decide)).1⟩

/-- C19, refuted as stated: with the output sink failed, `Flush` on a
`ZapJSONLogger` does not fail, it returns nil. -/
theorem Flush_failed_sink_counterexample :
    ZapJSONLogger.Flush { failed := true } (some 0) = GoError.nil
      ∧ Logger.Flush { failed := true } (Logger.zapJSON (some 0)) = some GoError.nil := by
  decide

/-- C19, amended: `Flush` is a no-operation on both backends. On a
`ZapJSONLogger` it returns nil whatever the state of the output sink, failed
or not (the log goes to the standard output, which is not synchronised); on
a `NoopLogger` it returns nil as well. -/
theorem Flush_returns_nil (sink : Sink) (z : Option Nat) (p : Bool) :
    ZapJSONLogger.Flush sink z = GoError.nil
      ∧ NoopLogger.Flush sink p = GoError.nil
      ∧ Logger.Flush sink (Logger.zapJSON z) = some GoError.nil
      ∧ Logger.Flush sink (Logger.noop p) = some GoError.nil :=
  ⟨rfl, rfl, rfl, rfl⟩

end logging

namespace terrors

open fmt (Sprintf Arg expand)

/-- C21: constructing `InvalidInput` with zero pairs is accepted. For the
empty list (a nil slice is one) and every cause, `NewInvalidInput` returns a
non-nil `InvalidInput` with message exactly `"invalid input(s): "` and an
empty `Inputs` field; and `NewInvalidSingleInput(input, msg, err)` is
`NewInvalidInput` of the one-element list `[(input, msg)]` with the same cause. -/
theorem NewInvalidInput_empty (input msg : String) (err : GoError) :
    NewInvalidInput [] err
        = GoError.typed err "invalid input(s): " (Variant.InvalidInput [])
      ∧ NewInvalidInput [] err ≠ GoError.nil
      ∧ (NewInvalidInput [] err).Error = some "invalid input(s): "
      ∧ errors.As (NewInvalidInput [] err) InvalidInputType = true
      ∧ NewInvalidSingleInput input msg err
        = NewInvalidInput [{ Input := input, Msg := msg }] err
      ∧ (NewInvalidSingleInput input msg err).Error
        = some ("invalid input(s): " ++ input ++ " " ++ msg) := by
  have h0 : NewInvalidInput [] err
      = GoError.typed err "invalid input(s): " (Variant.InvalidInput []) := rfl
  refine ⟨h0, ?_, ?_, ?_, rfl, ?_⟩
  · rw [h0]
    exact GoError.noConfusion
  · rw [h0]
    rfl
  · rw [h0]
    rfl
  · simp only [NewInvalidSingleInput, NewInvalidInput, newBaseError, GoError.Error,
      baseError.Error, invalidInputLoop_zero, Sprintf_invalid_inputs, Option.some.injEq]
    simp [String.intercalate, String.intercalate.go, renderInput, String.append_assoc]

end terrors

namespace rest

open terrors
open fmt (Sprintf Arg expand)

theorem orderStatusToREST_undefined (s : orders.OrderStatus)
    (hs : s ∉ orders.definedStatuses) :
    orderStatusToREST s
      = ("", GoError.foreign ("Unexpected status value: " ++ s) GoError.nil) := by
  simp only [orders.definedStatuses, List.mem_cons, List.mem_singleton, List.not_mem_nil,
    or_false, not_or] at hs
  obtain ⟨h1, h2, h3, h4, h5⟩ := hs
  have hmsg : Sprintf "Unexpected status value: %s" [Arg.str s]
      = "Unexpected status value: " ++ s := by
    apply String.ext
    simp [Sprintf, expand]
  simp [orderStatusToREST, h1, h2, h3, h4, h5, fmt.Errorf, hmsg]

theorem orderStatusToREST_defined (s : orders.OrderStatus)
    (hs : s ∈ orders.definedStatuses) :
    (orderStatusToREST s).2 = GoError.nil := by
  simp only [orders.definedStatuses, List.mem_cons, List.mem_singleton, List.not_mem_nil,
    or_false] at hs
  rcases hs with h | h | h | h | h <;> subst h <;> rfl

/-- C22: `orderStatusToREST` maps `PLACED`, `CANCELLED` and `ON HOLD` to
`"Placed"`, `DELIVERED` to `"Delivered"` and `IN TRANSIT` to `"In transit"`,
each with a nil error; for every other status `s` it returns the empty REST
status and an error with message `"Unexpected status value: " ++ s`; its
error is non-nil if and only if the status is not one of the five defined
values; and the function of chapter 2 returns the same on every input. -/
theorem orderStatusToREST_spec (s : orders.OrderStatus) :
    orderStatusToREST "PLACED" = ("Placed", GoError.nil)
      ∧ orderStatusToREST "CANCELLED" = ("Placed", GoError.nil)
      ∧ orderStatusToREST "ON HOLD" = ("Placed", GoError.nil)
      ∧ orderStatusToREST "DELIVERED" = ("Delivered", GoError.nil)
      ∧ orderStatusToREST "IN TRANSIT" = ("In transit", GoError.nil)
      ∧ orders.definedStatuses = ["PLACED", "DELIVERED", "IN TRANSIT", "CANCELLED", "ON HOLD"]
      ∧ (s ∉ orders.definedStatuses →
          (orderStatusToREST s).1 = ""
            ∧ (orderStatusToREST s).2.Error = some ("Unexpected status value: " ++ s))
      ∧ ((orderStatusToREST s).2 ≠ GoError.nil ↔ s ∉ orders.definedStatuses)
      ∧ chapter2.orderStatusToREST s = orderStatusToREST s := by
  refine ⟨rfl, rfl, rfl, rfl, rfl, rfl, ?_, ?_, rfl⟩
  · intro hs
    rw [orderStatusToREST_undefined s hs]
    exact ⟨rfl, rfl⟩
  · constructor
    · intro hne hs
      exact hne (orderStatusToREST_defined s hs)
    · intro hs
      rw [orderStatusToREST_undefined s hs]
      exact GoError.noConfusion

/-- Witness of C22 on the undefined status `"LOST"`. -/
theorem orderStatusToREST_spec_witness :
    (orderStatusToREST "LOST").1 = ""
      ∧ (orderStatusToREST "LOST").2.Error = some ("Unexpected status value: " ++ "LOST") :=
  (orderStatusToREST_spec "LOST").2.2.2.2.2.2.1 (by decide)

end rest

namespace rest

open terrors

/-- Over orders with defined statuses the loop appends one summary per order
and returns a nil error. -/
theorem summariesLoop_defined (os : List orders.Order) (resp : ListOrdersResponse)
    (hall : ∀ o ∈ os, o.Status ∈ orders.definedStatuses) :
    summariesLoop os resp
      = ({ OrderSummaries := resp.OrderSummaries ++ os.map (fun o =>
            { OrderID := o.OrderID, CustomerID := o.CustomerID, ProductID := o.ProductID,
              Status := (orderStatusToREST o.Status).1 }) }, GoError.nil) := by
  induction os generalizing resp with
  | nil => simp [summariesLoop]
  | cons o rest ih =>
    have ho := orderStatusToREST_defined o.Status (hall o (List.mem_cons_self o rest))
    have hrest : ∀ x ∈ rest, x.Status ∈ orders.definedStatuses :=
      fun x hx => hall x (List.mem_cons_of_mem o hx)
    rw [summariesLoop]
    simp only [ho, GoError.isNil, Bool.true_eq_false, if_false]
    rw [ih _ hrest]
    simp

theorem summariesLoop_undefined (pre post : List orders.Order) (o : orders.Order)
    (resp : ListOrdersResponse)
    (hpre : ∀ p ∈ pre, p.Status ∈ orders.definedStatuses)
    (ho : o.Status ∉ orders.definedStatuses) :
    summariesLoop (pre ++ o :: post) resp
      = ({ OrderSummaries := [] }, (orderStatusToREST o.Status).2) := by
  induction pre generalizing resp with
  | nil =>
    rw [List.nil_append, summariesLoop, orderStatusToREST_undefined o.Status ho]
    simp [GoError.isNil]
  | cons p rest ih =>
    have hp := orderStatusToREST_defined p.Status (hpre p (List.mem_cons_self p rest))
    have hrest : ∀ x ∈ rest, x.Status ∈ orders.definedStatuses :=
      fun x hx => hpre x (List.mem_cons_of_mem p hx)
    rw [List.cons_append, summariesLoop]
    simp only [hp, GoError.isNil, Bool.true_eq_false, if_false]
    exact ih _ hrest

theorem chapter2_summariesLoop_eq (os : List orders.Order) (resp : ListOrdersResponse) :
    chapter2.summariesLoop os resp = summariesLoop os resp := by
  induction os generalizing resp with
  | nil => rfl
  | cons o rest ih =>
    rw [chapter2.summariesLoop, summariesLoop]
    have h : chapter2.orderStatusToREST o.Status = orderStatusToREST o.Status := rfl
    rw [h]
    cases orderStatusToREST o.Status with
    | mk status err =>
      simp only [ih]

/-- C23: `internalOrdersToSummaries` is all-or-nothing. If every order has one
of the five defined statuses, it returns a nil error and one summary per
order, in the order given, each with the `OrderID`, `CustomerID` and
`ProductID` of its order and `orderStatusToREST` of its status. If some order
has an undefined status, it returns the empty `ListOrdersResponse` and the
error of `orderStatusToREST` for the first such order. The function of
chapter 2 returns the same on every input. -/
theorem internalOrdersToSummaries_spec (os : List orders.Order) :
    ((∀ o ∈ os, o.Status ∈ orders.definedStatuses) →
        internalOrdersToSummaries os
            = ({ OrderSummaries := os.map (fun o =>
                  { OrderID := o.OrderID, CustomerID := o.CustomerID,
                    ProductID := o.ProductID,
                    Status := (orderStatusToREST o.Status).1 }) }, GoError.nil)
          ∧ (internalOrdersToSummaries os).1.OrderSummaries.length = os.length)
      ∧ (∀ (pre post : List orders.Order) (o : orders.Order), os = pre ++ o :: post →
          (∀ p ∈ pre, p.Status ∈ orders.definedStatuses) →
          o.Status ∉ orders.definedStatuses →
          internalOrdersToSummaries os
              = ({ OrderSummaries := [] }, (orderStatusToREST o.Status).2)
            ∧ (internalOrdersToSummaries os).2.Error
              = some ("Unexpected status value: " ++ o.Status))
      ∧ chapter2.internalOrdersToRESTSummaries os = internalOrdersToSummaries os := by
  refine ⟨?_, ?_, chapter2_summariesLoop_eq os _⟩
  · intro hall
    have h := summariesLoop_defined os { OrderSummaries := [] } hall
    simp only [List.nil_append] at h
    refine ⟨h, ?_⟩
    rw [internalOrdersToSummaries, h]
    simp
  · intro pre post o hos hpre ho
    have h : internalOrdersToSummaries os
        = ({ OrderSummaries := [] }, (orderStatusToREST o.Status).2) := by
      rw [hos]
      exact summariesLoop_undefined pre post o _ hpre ho
    refine ⟨h, ?_⟩
    rw [h, orderStatusToREST_undefined o.Status ho]
    rfl

/-- Witness of C23: two orders with defined statuses, and the same two orders
followed by one with the undefined status `"LOST"` and a fourth order. -/
theorem internalOrdersToSummaries_spec_witness :
    internalOrdersToSummaries
        [{ CustomerID := "c1", OrderID := "o1", Address := "a", ProductID := "p1",
           PaymentID := "pay1", Status := "PLACED", DeliveryEntries := [],
           OrderedAt := { unixNano := 1 }, DeliveredAt := { unixNano := 0 } },
         { CustomerID := "c1", OrderID := "o2", Address := "a", ProductID := "p2",
           PaymentID := "pay2", Status := "IN TRANSIT", DeliveryEntries := [],
           OrderedAt := { unixNano := 2 }, DeliveredAt := { unixNano := 0 } }]
        = ({ OrderSummaries :=
              [{ OrderID := "o1", CustomerID := "c1", ProductID := "p1", Status := "Placed" },
               { OrderID := "o2", CustomerID := "c1", ProductID := "p2",
                 Status := "In transit" }] }, GoError.nil)
      ∧ internalOrdersToSummaries
          [{ CustomerID := "c1", OrderID := "o1", Address := "a", ProductID := "p1",
             PaymentID := "pay1", Status := "PLACED", DeliveryEntries := [],
             OrderedAt := { unixNano := 1 }, DeliveredAt := { unixNano := 0 } },
           { CustomerID := "c1", OrderID := "o3", Address := "a", ProductID := "p3",
             PaymentID := "pay3", Status := "LOST", DeliveryEntries := [],
             OrderedAt := { unixNano := 3 }, DeliveredAt := { unixNano := 0 } },
           { CustomerID := "c1", OrderID := "o4", Address := "a", ProductID := "p4",
             PaymentID := "pay4", Status := "DELIVERED", DeliveryEntries := [],
             OrderedAt := { unixNano := 4 }, DeliveredAt := { unixNano := 5 } }]
        = ({ OrderSummaries := [] },
            GoError.foreign "Unexpected status value: LOST" GoError.nil) :=
  ⟨((internalOrdersToSummaries_spec _).1 (by decide)).1.trans (by decide),
    ((internalOrdersToSummaries_spec _).2.1
      [{ CustomerID := "c1", OrderID := "o1", Address := "a", ProductID := "p1",
         PaymentID := "pay1", Status := "PLACED", DeliveryEntries := [],
         OrderedAt := { unixNano := 1 }, DeliveredAt := { unixNano := 0 } }]
      [{ CustomerID := "c1", OrderID := "o4", Address := "a", ProductID := "p4",
         PaymentID := "pay4", Status := "DELIVERED", DeliveryEntries := [],
         OrderedAt := { unixNano := 4 }, DeliveredAt := { unixNano := 5 } }]
      { CustomerID := "c1", OrderID := "o3", Address := "a", ProductID := "p3",
        PaymentID := "pay3", Status := "LOST", DeliveryEntries := [],
        OrderedAt := { unixNano := 3 }, DeliveredAt := { unixNano := 0 } }
      rfl (by decide) (by decide)).1.trans (by decide)⟩

end rest

namespace terrors

open fmt (Sprintf Arg expand)

/-- With a depth of at most 1 the loop of the extractor does not run: the
result is the message of the error and `errors.Unwrap` is not called. -/
theorem unwrapInfo_depth_le_one {E : Type} (ops : ErrorOps E) (maxDepth : Int) (err : E)
    (hd : maxDepth ≤ 1) (hn : ops.isNil err = false) :
    unwrapInfo ops maxDepth err = ops.Error err
      ∧ (unwrapInfoRun ops maxDepth err).unwraps = 0 := by
  have hi : ¬ (1 : Int) < maxDepth := by omega
  rw [unwrapInfo, unwrapInfoRun]
  cases hm : ops.Error err with
  | none => simp [hn]
  | some m =>
    simp only [hn, Bool.false_eq_true, if_false]
    rw [unwrapLoop, unwrapLoopRun]
    simp [hi]

theorem isNil_of_ne_nil {e : GoError} (h : e ≠ GoError.nil) : e.isNil = false := by
  cases e with
  | nil => exact absurd rfl h
  | foreign msg cause => rfl
  | foreignPresentable msg presentable cause => rfl
  | typed Err msg v => rfl
  | presentableWrapper err => rfl

theorem Sprintf_ne_empty_of_data {format : String} {args : List Arg}
    (h : expand format.data args ≠ []) : Sprintf format args ≠ "" := by
  intro he
  apply h
  have := congrArg String.data he
  simpa [Sprintf] using this

/-- The message of an error of the twelve variants is never empty. -/
theorem Call_Error_ne_empty (c : Call) : c.eval.Error ≠ some "" := by
  have hkey : ∀ (Err : GoError) (m : String) (v : Variant), m ≠ "" →
      (GoError.typed Err m v).Error ≠ some "" := by
    intro Err m v hm h
    apply hm
    simpa [GoError.Error, baseError.Error] using h
  cases c <;>
    simp only [Call.eval, NewInternalError, NewUnknownError, NewNotImplemented, NewInvalidInput,
      NewInvalidSingleInput, NewInvalidParameter, NewNilParameter, NewNotFound,
      NewServiceUnavailable, NewServiceUnavailableWithRetryInterval, NewStateConflict,
      NewUnauthenticated, NewForbidden, NewUnsatisfiableRange, NewInvalidCtxValue,
      newBaseError] <;>
    apply hkey <;> apply Sprintf_ne_empty_of_data <;> simp [expand]

/-- C24, refuted as stated: with depth 0 the extractor yields the empty
string on the non-nil error `errors.New("")`, whose message is empty. -/
theorem UnwrapInfoExtractor_empty_counterexample :
    errors.New "" ≠ GoError.nil ∧ UnwrapInfoExtractor 0 (errors.New "") = some "" := by
  constructor
  · decide
  · simp [UnwrapInfoExtractor, unwrapInfo, unwrapLoop, GoError.ops, GoError.isNil,
      GoError.Error, errors.New]

/-- C24, amended: for every non-nil error `err` and every `maxDepth ≤ 0`,
`UnwrapInfoExtractor(maxDepth)(err)` is `err.Error()`, exactly as for
`maxDepth = 1`, and `errors.Unwrap` is not called; so the result is the empty
string only when the message of `err` is empty, which it never is for an
error of the twelve variants. For a nil `err` the result is the empty string
for every `maxDepth`. -/
theorem UnwrapInfoExtractor_nonpositive (maxDepth : Int) (err : GoError)
    (hd : maxDepth ≤ 0) (hne : err ≠ GoError.nil) :
    UnwrapInfoExtractor maxDepth err = err.Error
      ∧ UnwrapInfoExtractor 1 err = err.Error
      ∧ (unwrapInfoRun GoError.ops maxDepth err).unwraps = 0
      ∧ (unwrapInfoRun GoError.ops maxDepth err).result = UnwrapInfoExtractor maxDepth err
      ∧ (UnwrapInfoExtractor maxDepth err = some "" ↔ err.Error = some "")
      ∧ (∀ c : Call, UnwrapInfoExtractor maxDepth c.eval = c.eval.Error
          ∧ UnwrapInfoExtractor maxDepth c.eval ≠ some "")
      ∧ (∀ d : Int, UnwrapInfoExtractor d GoError.nil = some "") := by
  have hn := isNil_of_ne_nil hne
  have h0 : UnwrapInfoExtractor maxDepth err = err.Error :=
    (unwrapInfo_depth_le_one GoError.ops maxDepth err (by omega) hn).1
  have hcall : ∀ c : Call, UnwrapInfoExtractor maxDepth c.eval = c.eval.Error := by
    intro c
    have hc : c.eval.isNil = false := by cases c <;> rfl
    exact (unwrapInfo_depth_le_one GoError.ops maxDepth c.eval (by omega) hc).1
  refine ⟨h0, (unwrapInfo_depth_le_one GoError.ops 1 err (le_refl 1) hn).1,
    (unwrapInfo_depth_le_one GoError.ops maxDepth err (by omega) hn).2, ?_, ?_, ?_, ?_⟩
  · have hrun : ∀ {F : Type} (o : ErrorOps F) (x : F), o.isNil x = false →
        (unwrapInfoRun o maxDepth x).result = unwrapInfo o maxDepth x := by
      intro F o x hx
      have hi : ¬ (1 : Int) < maxDepth := by omega
      rw [unwrapInfo, unwrapInfoRun]
      cases hm : o.Error x with
      | none => simp [hx]
      | some m =>
        simp only [hx, Bool.false_eq_true, if_false]
        rw [unwrapLoop, unwrapLoopRun]
        simp [hi]
    exact hrun GoError.ops err hn
  · rw [h0]
  · intro c
    refine ⟨hcall c, ?_⟩
    rw [hcall c]
    exact Call_Error_ne_empty c
  · intro d
    rfl

/-- Witness of the amended C24: a `NotFound` over a cause, flattened with
depth 0 and with depth -3. -/
theorem UnwrapInfoExtractor_nonpositive_witness :
    UnwrapInfoExtractor 0 (NewNotFound "order" "id" "order-99" (errors.New "EOF"))
        = some "order was not found with id: order-99"
      ∧ UnwrapInfoExtractor (-3) (NewNotFound "order" "id" "order-99" (errors.New "EOF"))
        = some "order was not found with id: order-99"
      ∧ (unwrapInfoRun GoError.ops 0
          (NewNotFound "order" "id" "order-99" (errors.New "EOF"))).unwraps = 0 :=
  ⟨(UnwrapInfoExtractor_nonpositive 0 _ (by decide) (by decide)).1.trans (by decide),
    (UnwrapInfoExtractor_nonpositive (-3) _ (by decide) (by decide)).1.trans (by decide),
    (UnwrapInfoExtractor_nonpositive 0 _ (by decide) (by decide)).2.2.1⟩

/-- C25: nil in the presentable layer. `IsPresentable(nil)` is false and
`PresentableErrorMsg(nil, msg)` returns `msg`; `Presentable(nil)` is a
non-nil error that is presentable and whose `Error()` and
`PresentableError()` panic on the nil inner error, so
`PresentableErrorMsg(Presentable(nil), msg)` panics instead of returning `msg`. -/
theorem Presentable_nil (msg : String) :
    IsPresentable GoError.nil = false
      ∧ PresentableErrorMsg GoError.nil msg = some msg
      ∧ Presentable GoError.nil ≠ GoError.nil
      ∧ IsPresentable (Presentable GoError.nil) = true
      ∧ (Presentable GoError.nil).Error = none
      ∧ presentableWrapper.PresentableError (Presentable GoError.nil) = none
      ∧ PresentableErrorMsg (Presentable GoError.nil) msg = none
      ∧ PresentableErrorMsg (Presentable GoError.nil) msg ≠ some msg := by
  refine ⟨rfl, rfl, GoError.noConfusion, rfl, rfl, rfl, rfl, ?_⟩
  intro h
  exact Option.noConfusion h

end terrors
